import Mathlib

/-!
Shallow embedding of the `ras` x86-64 assembler backend
(sections of src/encoder/arch/x86_64/registers.rs, src/encoder/mod.rs,
src/encoder/addr.rs, src/elf/elf64.rs) together with theorems settling the
frozen claims about its specification.

Machine integers are modelled as `Nat`/`Int`; where the Rust code performs
`usize`/`u64`/`i64`/`u32` arithmetic whose wrap-around matters, an explicit
reduction modulo `2 ^ w` (or a signed wrap) is applied, matching release-mode
two's-complement semantics.
-/

/-- Data-size suffix of a register or operation
(`DataSizeSuffix` in src/encoder/arch/x86_64/registers.rs).
The `single` and `double` variants are referenced by `Encoder::add_prefix` in
src/encoder/mod.rs (scalar SIMD prefixes 0xF3/0xF2, spec section 4.3) but are
missing from the copy of registers.rs under src; they are modelled from the
spec. -/
inductive DataSizeSuffix where
  | byte
  | word
  | long
  | quad
  | single
  | double
  | unknown
deriving DecidableEq, Repr

/-- General purpose / SIMD register record (`Register` in
src/encoder/arch/x86_64/registers.rs): literal name, width class, numeric
base offset, and whether a REX prefix is mandatory even at offset < 8. -/
structure Register where
  lit : String
  size : DataSizeSuffix
  baseOffset : Nat
  rexRequired : Bool
deriving DecidableEq, Repr

/-- The `register_tuple!` macro arm without the explicit rex flag
(`rex_required` defaults to `false`). -/
def regT (lit : String) (off : Nat) (size : DataSizeSuffix) : String × Register :=
  (lit, { lit := lit, size := size, baseOffset := off, rexRequired := false })

/-- The `register_tuple!` macro arm with `rex_required = true`. -/
def regTR (lit : String) (off : Nat) (size : DataSizeSuffix) : String × Register :=
  (lit, { lit := lit, size := size, baseOffset := off, rexRequired := true })

/-- The static 72-entry general-register table `GENERAL_REGISTERS`
(src/encoder/arch/x86_64/registers.rs lines 44-122), in source order. -/
def GENERAL_REGISTERS : List (String × Register) := [
  -- 64bit
  regT "RAX" 0 .quad, regT "RCX" 1 .quad, regT "RDX" 2 .quad, regT "RBX" 3 .quad,
  regT "RSP" 4 .quad, regT "RBP" 5 .quad, regT "RSI" 6 .quad, regT "RDI" 7 .quad,
  regT "R8" 8 .quad, regT "R9" 9 .quad, regT "R10" 10 .quad, regT "R11" 11 .quad,
  regT "R12" 12 .quad, regT "R13" 13 .quad, regT "R14" 14 .quad, regT "R15" 15 .quad,
  -- 32bit
  regT "EAX" 0 .long, regT "ECX" 1 .long, regT "EDX" 2 .long, regT "EBX" 3 .long,
  regT "ESP" 4 .long, regT "EBP" 5 .long, regT "ESI" 6 .long, regT "EDI" 7 .long,
  regT "R8D" 8 .long, regT "R9D" 9 .long, regT "R10D" 10 .long, regT "R11D" 11 .long,
  regT "R12D" 12 .long, regT "R13D" 13 .long, regT "R14D" 14 .long, regT "R15D" 15 .long,
  -- 16bit
  regT "AX" 0 .word, regT "CX" 1 .word, regT "DX" 2 .word, regT "BX" 3 .word,
  regT "SP" 4 .word, regT "BP" 5 .word, regT "SI" 6 .word, regT "DI" 7 .word,
  regT "R8W" 8 .word, regT "R9W" 9 .word, regT "R10W" 10 .word, regT "R11W" 11 .word,
  regT "R12W" 12 .word, regT "R13W" 13 .word, regT "R14W" 14 .word, regT "R15W" 15 .word,
  -- 8bit
  regT "AL" 0 .byte, regT "CL" 1 .byte, regT "DL" 2 .byte, regT "BL" 3 .byte,
  regT "AH" 4 .byte, regT "BP" 5 .byte, regT "CH" 5 .byte, regT "DH" 6 .byte,
  regT "BH" 7 .byte,
  regTR "SPL" 4 .byte, regTR "BPL" 5 .byte, regTR "SIL" 6 .byte, regTR "DIL" 7 .byte,
  regT "R8B" 8 .byte, regT "R9B" 9 .byte, regT "R10B" 10 .byte, regT "R11B" 11 .byte,
  regT "R12B" 12 .byte, regT "R13B" 13 .byte, regT "R14B" 14 .byte, regT "R15B" 15 .byte,
  -- instruction pointers
  regT "RIP" 0 .quad, regT "EIP" 0 .long, regT "IP" 0 .word]

/-- The 16-entry `XMM_REGISTERS` table generated by `seq!(N in 0..16)`
(src/encoder/arch/x86_64/registers.rs lines 138-142). -/
def XMM_REGISTERS : List (String × Register) :=
  (List.range 16).map (fun n =>
    let name := "XMM" ++ toString n
    (name, { lit := name, size := .unknown, baseOffset := n, rexRequired := false }))

/-- `get_reg_info_by` (src/encoder/arch/x86_64/registers.rs lines 145-153):
returns the first entry of `GENERAL_REGISTERS` whose name equals the query. -/
def getRegInfoBy (regName : String) : Except String Register :=
  match GENERAL_REGISTERS.find? (fun p => p.1 == regName) with
  | some v => .ok v.2
  | none => .error "No such general purpose register could be found."

/-- `get_xmm_by` (src/encoder/arch/x86_64/registers.rs lines 156-162). -/
def getXmmBy (regName : String) : Except String Register :=
  match XMM_REGISTERS.find? (fun p => p.1 == regName) with
  | some v => .ok v.2
  | none => .error "Not such XMM register could be found."

/-- Modelled from the spec: `OPERAND_SIZE_PREFIX16` lives in the missing
module src/encoder/arch/x86_64/bin_const.rs; spec section 4.3 fixes it as
the 0x66 operand-size prefix emitted before 16-bit operations. -/
def OPERAND_SIZE_PREFIX16 : Nat := 0x66

/-- The `rex` byte builder (src/encoder/mod.rs lines 299-301):
`64 | (w << 3) | (r << 2) | (x << 1) | b`. -/
def rex (w r x b : Nat) : Nat :=
  64 ||| (w <<< 3) ||| (r <<< 2) ||| (x <<< 1) ||| b

/-- `Encoder::add_prefix` (src/encoder/mod.rs lines 304-343), modelled as the
list of prefix bytes it appends to `current_instr.code`: the operand-size /
scalar prefixes first, then a REX byte exactly when the source's final
condition (`w`, `r`, `b` or `x` nonzero, or `reg_r`/`reg_b` requires REX)
holds. Note the source never consults `reg_i.rex_required`. -/
def addPrefix (regR regI regB : Register) (sizes : List DataSizeSuffix) : List Nat :=
  let w : Nat := if sizes.contains .quad then 1 else 0
  let r : Nat := if 8 ≤ regR.baseOffset then 1 else 0
  let x : Nat := if 8 ≤ regI.baseOffset then 1 else 0
  let b : Nat := if 8 ≤ regB.baseOffset then 1 else 0
  (if sizes.contains .word then [OPERAND_SIZE_PREFIX16] else []) ++
    (if sizes.contains .single then [0xf3] else []) ++
      (if sizes.contains .double then [0xf2] else []) ++
        (if w ≠ 0 ∨ r ≠ 0 ∨ b ≠ 0 ∨ x ≠ 0 ∨ regR.rexRequired ∨ regB.rexRequired
         then [rex w r x b] else [])

/-- A byte in the REX range `0x40..=0x4F` (the `0100` high nibble of spec
section 4.3). -/
def isRexByte (n : Nat) : Bool := 0x40 ≤ n && n ≤ 0x4F

/-- The spec's notion that "a forced-REX byte register (SPL/BPL/SIL/DIL) is
used" among the reg/index/base operands handed to the prefix emitter
(spec section 8, REX necessity). This is the claim side of C5, not a
translation of the source. -/
def specForcedRexUsed (regR regI regB : Register) : Bool :=
  regR.rexRequired || regI.rexRequired || regB.rexRequired

/-! ## Tokens and the operand parser (src/encoder/mod.rs) -/

/-- Source location. The `Location` type is imported by src/encoder/mod.rs
from a module missing under src; modelled from the spec (section 6: a source
location carries the originating file name and a line). -/
structure Location where
  fileName : String
  line : Nat
deriving DecidableEq, Repr

/-- Token kinds as matched by the encoder (src/encoder/mod.rs); the
`ident`/`number` variants carry their literal, as in the patterns
`TokenKind::Ident(reg_name)` / `TokenKind::Number(num)`. -/
inductive TokenKind where
  | ident (s : String)
  | number (s : String)
  | comma
  | lparen
  | rparen
  | plus
  | minus
  | mul
  | div
  | percent
  | dolor
  | eof
deriving DecidableEq, Repr

/-- A token: kind plus location (src/encoder/mod.rs destructures
`Token { kind, loc }`). -/
structure Token where
  kind : TokenKind
  loc : Location
deriving DecidableEq, Repr

/-- Result of `peek_n` (src/encoder/mod.rs lines 98-106). When
`tokens.get(n)` is `None`, the error arm evaluates `tokens[n].loc`, which
indexes out of bounds and panics; so the function either finds a token or
panics, and its `Err` case is unreachable. `oobPanic` models that panic. -/
inductive PeekRes where
  | found (t : Token)
  | oobPanic
deriving DecidableEq, Repr

/-- `peek_n` (src/encoder/mod.rs lines 98-106). -/
def peekN (n : Nat) (tokens : List Token) : PeekRes :=
  match tokens[n]? with
  | some t => .found t
  | none => .oobPanic

/-- Result of the fallible parser functions: a value together with the final
cursor, a recoverable error (`bail!`, with its location when one is
attached), or a panic. -/
inductive PRes (α : Type) where
  | ok (a : α) (i : Nat)
  | err (loc : Option Location) (msg : String)
  | crash
deriving DecidableEq, Repr

/-- Whether a parse result is a success. -/
def PRes.isOk {α : Type} : PRes α → Bool
  | .ok _ _ => true
  | _ => false

/-- Expression operands (`Expr` in src/encoder/arch/x86_64/mod.rs). -/
inductive Expr where
  | ident (s : String)
  | num (s : String)
  | neg (e : Expr)
  | binop (leftHs : Expr) (rightHs : Expr) (op : TokenKind)
  | immediate (e : Expr)
  | indirection (disp : Option Expr) (base : Option Expr) (index : Option Expr)
      (scale : Option Expr) (hasBase : Bool) (hasIndexScale : Bool)
  | register (r : Register)
  | xmm (r : Register)
  | star (e : Expr)

/-- `expect` (src/encoder/mod.rs lines 90-96): advances the cursor via
`peek_next` and demands the given token kind. -/
def expect (tokenKind : TokenKind) (i : Nat) (tokens : List Token) : PRes Unit :=
  match peekN (i + 1) tokens with
  | .oobPanic => .crash
  | .found t =>
      if t.kind == tokenKind then .ok () (i + 1)
      else .err (some t.loc) "Unexpected token. expected other kind"

/-- `parse_register` (src/encoder/mod.rs lines 115-132). The `Err` arm of its
inner `peek_n` match is unreachable (peek panics instead); lookup failure of
`get_reg_info_by` propagates the register table's location-free error. -/
def parseRegister (i : Nat) (tokens : List Token) : PRes Expr :=
  match peekN i tokens with
  | .oobPanic => .crash
  | .found cur =>
    match peekN (i + 1) tokens with
    | .oobPanic => .crash
    | .found next =>
      match next.kind with
      | .ident regName =>
        match getXmmBy regName.toUpper with
        | .ok x => .ok (.xmm x) (i + 1)
        | .error _ =>
          match getRegInfoBy regName.toUpper with
          | .ok r => .ok (.register r) (i + 1)
          | .error e => .err none e
      | _ => .err (some cur.loc) "The next character after percent must be register."

/-- `parse_factor` (src/encoder/mod.rs lines 135-150). Note that the
`Number`/`Ident` arms return without advancing the cursor. `fuel` bounds the
recursion depth of the shallow embedding; runs with enough fuel agree with
the source. -/
def parseFactor : Nat → Nat → List Token → PRes Expr
  | 0, _, _ => .crash
  | fuel + 1, i, tokens =>
    match peekN i tokens with
    | .oobPanic => .crash
    | .found cur =>
      match cur.kind with
      | .number n => .ok (.num n) i
      | .ident s => .ok (.ident s) i
      | .minus =>
        match parseFactor fuel (i + 1) tokens with
        | .ok e i' => .ok (.neg e) i'
        | .err l m => .err l m
        | .crash => .crash
      | _ => .err (some cur.loc) "Unexpected token kind"

/-- `parse_expr` (src/encoder/mod.rs lines 153-174): parses a factor, then
peeks at the *same* cursor position (the factor did not advance past its
token) for a binary operator and recurses on the right-hand side. -/
def parseExpr : Nat → Nat → List Token → PRes Expr
  | 0, _, _ => .crash
  | fuel + 1, i, tokens =>
    match parseFactor (fuel + 1) i tokens with
    | .err l m => .err l m
    | .crash => .crash
    | .ok leftHs i1 =>
      match peekN i1 tokens with
      | .oobPanic => .crash
      | .found cur =>
        match cur.kind with
        | .div | .minus | .mul | .plus =>
          match parseExpr fuel (i1 + 1) tokens with
          | .ok rightHs i2 => .ok (.binop leftHs rightHs cur.kind) i2
          | .err l m => .err l m
          | .crash => .crash
        | _ => .err (some cur.loc) "Unexpected token kind"

/-- `parse_indirect` (src/encoder/mod.rs lines 184-226). -/
def parseIndirect (fuel : Nat) (i : Nat) (tokens : List Token) : PRes Expr :=
  match peekN i tokens with
  | .oobPanic => .crash
  | .found first =>
    match (if first.kind == TokenKind.lparen then PRes.ok (Expr.num "0") i
           else parseExpr fuel i tokens) with
    | .err l m => .err l m
    | .crash => .crash
    | .ok expr i1 =>
      if first.kind != .lparen then .ok expr i1
      else
        match peekN (i1 + 1) tokens with
        | .oobPanic => .crash
        | .found nxt =>
          if nxt.kind == .comma then
            match parseRegister (i1 + 1) tokens with
            | .err l m => .err l m
            | .crash => .crash
            | .ok base i2 =>
              match parseRegister i2 tokens with
              | .err l m => .err l m
              | .crash => .crash
              | .ok index i3 =>
                match (match peekN (i3 + 1) tokens with
                       | .oobPanic => PRes.crash
                       | .found s =>
                         if s.kind == TokenKind.comma then parseExpr fuel (i3 + 1) tokens
                         else PRes.ok (Expr.num "1") (i3 + 1)) with
                | .err l m => .err l m
                | .crash => .crash
                | .ok scale i4 =>
                  match expect .rparen i4 tokens with
                  | .err l m => .err l m
                  | .crash => .crash
                  | .ok _ i5 =>
                    .ok (.indirection (some expr) (some base) (some index)
                          (some scale) false false) i5
          else
            .ok (.indirection (some expr) none none none false false) (i1 + 1)

/-- `parse_operand` (src/encoder/mod.rs lines 228-244). -/
def parseOperand (fuel : Nat) (i : Nat) (tokens : List Token) : PRes Expr :=
  match peekN i tokens with
  | .oobPanic => .crash
  | .found cur =>
    match cur.kind with
    | .dolor =>
      match parseExpr fuel (i + 1) tokens with
      | .ok e i' => .ok (.immediate e) i'
      | .err l m => .err l m
      | .crash => .crash
    | .percent => parseRegister i tokens
    | .mul =>
      match parseRegister i tokens with
      | .ok e i' => .ok (.star e) i'
      | .err l m => .err l m
      | .crash => .crash
    | .lparen => parseIndirect fuel i tokens
    | _ => .err (some cur.loc) "Unexpected token kind"

/-- `parse` (src/encoder/mod.rs lines 354-363): the driver loop
`while index <= tokens.len()`, parsing one operand per iteration and then
advancing the cursor by one. `fuel` bounds the number of iterations. -/
def parseLoop (fuel : Nat) : Nat → Nat → List Token → PRes Unit
  | 0, _, _ => .crash
  | iter + 1, i, tokens =>
    if i ≤ tokens.length then
      match parseOperand fuel i tokens with
      | .ok _ i' => parseLoop fuel iter (i' + 1) tokens
      | .err l m => .err l m
      | .crash => .crash
    else .ok () i

/-! ## Expression evaluation (src/encoder/mod.rs lines 246-284) -/

/-- Signed two's-complement wrap into the `i64` range (Rust release-mode
overflow semantics). -/
def i64wrap (x : Int) : Int := (x + 2 ^ 63).emod (2 ^ 64) - 2 ^ 63

/-- Signed two's-complement wrap into the `i32` range (the `as i32` cast in
`eval_expr`). -/
def i32wrap (x : Int) : Int := (x + 2 ^ 31).emod (2 ^ 32) - 2 ^ 31

/-- Rust's `str::parse::<i64>`: an optional sign followed by decimal digits,
rejecting the empty digit string and values outside the `i64` range.
`String.toInt?` provides the decimal reading; the range check mirrors the
overflow failure of `parse`. -/
def parseI64 (s : String) : Option Int :=
  match s.toInt? with
  | some v => if -(2 ^ 63) ≤ v ∧ v < 2 ^ 63 then some v else none
  | none => none

/-- Result of expression evaluation: a value, a recoverable error
(`error::bail!`), or a panic (`unimplemented!()`, division by zero,
or `i64::MIN / -1`). -/
inductive EvalRes where
  | ok (v : Int)
  | err (msg : String)
  | crash
deriving DecidableEq, Repr

/-- `eval_expr_get_symbol_64` (src/encoder/mod.rs lines 246-279), following
the source: numbers parse as `i64`; a binary node dispatches on the operator
first, evaluates the left side then the right side, and combines with
wrapping `i64` arithmetic (`/` truncates toward zero, panicking on a zero
divisor or `i64::MIN / -1`); an identifier is appended to `arr` and
contributes 0; unary minus negates; `Immediate` unwraps; every other
constructor hits `unimplemented!()`. Returns the result together with the
final contents of `arr`. -/
def evalExprGetSymbol64 : Expr → List String → EvalRes × List String
  | .num s, arr =>
    match parseI64 s with
    | some v => (.ok v, arr)
    | none => (.err "Failed to parse number", arr)
  | .binop leftHs rightHs op, arr =>
    match op with
    | .plus =>
      match evalExprGetSymbol64 leftHs arr with
      | (.ok lv, arr1) =>
        match evalExprGetSymbol64 rightHs arr1 with
        | (.ok rv, arr2) => (.ok (i64wrap (lv + rv)), arr2)
        | other => other
      | other => other
    | .minus =>
      match evalExprGetSymbol64 leftHs arr with
      | (.ok lv, arr1) =>
        match evalExprGetSymbol64 rightHs arr1 with
        | (.ok rv, arr2) => (.ok (i64wrap (lv - rv)), arr2)
        | other => other
      | other => other
    | .mul =>
      match evalExprGetSymbol64 leftHs arr with
      | (.ok lv, arr1) =>
        match evalExprGetSymbol64 rightHs arr1 with
        | (.ok rv, arr2) => (.ok (i64wrap (lv * rv)), arr2)
        | other => other
      | other => other
    | .div =>
      match evalExprGetSymbol64 leftHs arr with
      | (.ok lv, arr1) =>
        match evalExprGetSymbol64 rightHs arr1 with
        | (.ok rv, arr2) =>
            if rv = 0 ∨ (lv = -(2 ^ 63) ∧ rv = -1) then (.crash, arr2)
            else (.ok (lv.tdiv rv), arr2)
        | other => other
      | other => other
    | _ => (.err "Unimplemented yet!", arr)
  | .ident s, arr => (.ok 0, arr ++ [s])
  | .neg e, arr =>
    match evalExprGetSymbol64 e arr with
    | (.ok v, arr1) => (.ok (i64wrap (-v)), arr1)
    | other => other
  | .immediate e, arr => evalExprGetSymbol64 e arr
  | _, arr => (.crash, arr)

/-- `eval_expr` (src/encoder/mod.rs lines 281-284): evaluates with a fresh
identifier array — whose final contents it discards without inspecting — and
casts the value to `i32`. -/
def evalExpr (e : Expr) : EvalRes :=
  match (evalExprGetSymbol64 e []).1 with
  | .ok v => .ok (i32wrap v)
  | .err m => .err m
  | .crash => .crash

/-- Specification-side semantics used to state the amended claim C7: the
fragment of `Expr` that `eval_expr_get_symbol_64` evaluates without
erroring or panicking, together with the value it computes (free
identifiers contribute 0) and the identifiers it collects, left to right. -/
def semExpr : Expr → Option (Int × List String)
  | .num s => (parseI64 s).map (fun v => (v, []))
  | .ident s => some (0, [s])
  | .neg e => (semExpr e).map (fun p => (i64wrap (-p.1), p.2))
  | .binop l r op =>
    match op with
    | .plus =>
      match semExpr l, semExpr r with
      | some a, some b => some (i64wrap (a.1 + b.1), a.2 ++ b.2)
      | _, _ => none
    | .minus =>
      match semExpr l, semExpr r with
      | some a, some b => some (i64wrap (a.1 - b.1), a.2 ++ b.2)
      | _, _ => none
    | .mul =>
      match semExpr l, semExpr r with
      | some a, some b => some (i64wrap (a.1 * b.1), a.2 ++ b.2)
      | _, _ => none
    | .div =>
      match semExpr l, semExpr r with
      | some a, some b =>
        if b.1 = 0 ∨ (a.1 = -(2 ^ 63) ∧ b.1 = -1) then none
        else some (a.1.tdiv b.1, a.2 ++ b.2)
      | _, _ => none
    | _ => none
  | .immediate e => semExpr e
  | _ => none

/-! ## Symbols, sections, relocations (src/encoder/mod.rs, src/encoder/addr.rs) -/

/-- ELF constants (src/elf/elf64.rs lines 112-167). -/
def STB_LOCAL : Nat := 0

/-- `STB_GLOBAL` (src/elf/elf64.rs line 113). -/
def STB_GLOBAL : Nat := 1

/-- `STT_NOTYPE` (src/elf/elf64.rs line 115). -/
def STT_NOTYPE : Nat := 0

/-- `STT_SECTION` (src/elf/elf64.rs line 118). -/
def STT_SECTION : Nat := 3

/-- `SHT_NULL` (src/elf/elf64.rs line 129). -/
def SHT_NULL : Nat := 0

/-- `SHT_PROGBITS` (src/elf/elf64.rs line 130). -/
def SHT_PROGBITS : Nat := 1

/-- `SHT_SYMTAB` (src/elf/elf64.rs line 131). -/
def SHT_SYMTAB : Nat := 2

/-- `SHT_STRTAB` (src/elf/elf64.rs line 132). -/
def SHT_STRTAB : Nat := 3

/-- `SHT_RELA` (src/elf/elf64.rs line 133). -/
def SHT_RELA : Nat := 4

/-- `SHF_WRITE` (src/elf/elf64.rs line 135). -/
def SHF_WRITE : Nat := 0x1

/-- `SHF_ALLOC` (src/elf/elf64.rs line 136). -/
def SHF_ALLOC : Nat := 0x2

/-- `SHF_EXECINSTR` (src/elf/elf64.rs line 137). -/
def SHF_EXECINSTR : Nat := 0x4

/-- `SHF_INFO_LINK` (src/elf/elf64.rs line 140). -/
def SHF_INFO_LINK : Nat := 0x40

/-- `R_X86_64_64` (src/elf/elf64.rs line 147). -/
def R_X86_64_64 : Nat := 1

/-- `R_X86_64_PC32` (src/elf/elf64.rs line 148). -/
def R_X86_64_PC32 : Nat := 2

/-- `R_X86_64_32` (src/elf/elf64.rs line 156). -/
def R_X86_64_32 : Nat := 10

/-- `R_X86_64_32S` (src/elf/elf64.rs line 157). -/
def R_X86_64_32S : Nat := 11

/-- `R_X86_64_16` (src/elf/elf64.rs line 158). -/
def R_X86_64_16 : Nat := 12

/-- `R_X86_64_8` (src/elf/elf64.rs line 160). -/
def R_X86_64_8 : Nat := 14

/-- `STV_HIDDEN` (src/elf/elf64.rs line 166). -/
def STV_HIDDEN : Nat := 2

/-- `STV_INTERNAL` (src/elf/elf64.rs line 165). -/
def STV_INTERNAL : Nat := 1

/-- `STV_PROTECTED` (src/elf/elf64.rs line 167). -/
def STV_PROTECTED : Nat := 3

/-- Instruction kinds. Modelled from the spec: `InstrKind` lives in the
missing module src/encoder/arch/x86_64/instructions.rs; the variants below
are those distinguished by the `match i.kind` in `assign_addresses`
(src/encoder/addr.rs lines 89-97) plus one collapsed variant `insn` for
every other kind (the `_ => {}` arm: ordinary encoded instructions,
labels, and the remaining directives). -/
inductive InstrKind where
  | sectionDir
  | globalDir
  | localDir
  | hiddenDir
  | internalDir
  | protectedDir
  | insn
deriving DecidableEq, Repr

/-- Instruction record (`Instr`, src/encoder/mod.rs lines 26-39). The Rust
field `section` is called `sectionName` here (`section` is a Lean keyword);
byte vectors are `List Nat`, the `u8` bindings are `Nat`. -/
structure Instr where
  kind : InstrKind
  code : List Nat
  symbolName : String
  flags : String
  addr : Nat
  binding : Nat
  visibility : Nat
  symbolType : Nat
  sectionName : String
  isJmpOrCall : Bool
  loc : Location
deriving DecidableEq, Repr

/-- Relocation record (`Rela`, src/encoder/mod.rs lines 42-49); `adjust` is
the `i32` addend adjustment. -/
structure Rela where
  uses : String
  instr : Instr
  offset : Nat
  rtype : Nat
  adjust : Int
  isAlreadyResolved : Bool
deriving DecidableEq, Repr

/-- `UserDefinedSection` (src/encoder/mod.rs lines 52-56). -/
structure UserDefinedSection where
  code : List Nat
  addr : Nat
  flags : Nat
deriving DecidableEq, Repr

/-- `HashMap::get`, modelled on an association list: the value of the first
entry with the queried key (keys are unique in the maps the program
builds). -/
def mapLookup {α : Type} (m : List (String × α)) (k : String) : Option α :=
  (m.find? (fun p => p.1 == k)).map (·.2)

/-- `HashMap::get_mut` followed by an in-place update: rewrites the value of
every entry whose key matches (a no-op when the key is absent, where the
source's `.unwrap()` would panic — the theorems below assume presence). -/
def mapUpdate {α : Type} (m : List (String × α)) (k : String) (f : α → α) :
    List (String × α) :=
  m.map (fun p => if p.1 == k then (p.1, f p.2) else p)

/-- `byteorder` little-endian encoding of the low 32 bits of a value
(`write_u32::<LittleEndian>`). -/
def le32 (v : Nat) : List Nat :=
  [v % 256, v / 256 % 256, v / 65536 % 256, v / 16777216 % 256]

/-- The four indexed stores
`user.code[instr.addr + offset + k] = hex[k]` (src/encoder/addr.rs lines
66-69). `List.set` is a no-op out of bounds, where Rust would panic; the
relocation claims assume the write range is in bounds. -/
def patch4 (code : List Nat) (pos : Nat) (hex : List Nat) : List Nat :=
  ((((code.set pos (hex.getD 0 0)).set (pos + 1) (hex.getD 1 0)).set
      (pos + 2) (hex.getD 2 0)).set (pos + 3) (hex.getD 3 0))

/-- The guard of `fix_same_section_relocations` (src/encoder/addr.rs lines
47-57): the referenced symbol is defined, lives in the same section as the
referencing instruction, is not global-bound, and the instruction is a
direct jump/call or the relocation type is PC32. The three `continue`
statements of the source are collapsed into one conjunction. -/
def relaCond (symbols : List (String × Instr)) (r : Rela) : Bool :=
  match mapLookup symbols r.uses with
  | none => false
  | some symbol =>
    symbol.sectionName == r.instr.sectionName &&
      symbol.binding != STB_GLOBAL &&
        (r.instr.isJmpOrCall || r.rtype == R_X86_64_PC32)

/-- The patched `u32` for a relocation meeting the guard:
`num = ((symbol.addr - instr.addr) - instr.code.len()) + adjust as usize`
computed in wrapping `usize` arithmetic, then truncated by
`write_u32(num as u32)`. -/
def relaNum32 (symbols : List (String × Instr)) (r : Rela) : Nat :=
  match mapLookup symbols r.uses with
  | none => 0
  | some symbol =>
    ((((symbol.addr : Int) - (r.instr.addr : Int) - (r.instr.code.length : Int)
        + r.adjust).emod (2 ^ 64)).toNat) % 2 ^ 32

/-- One iteration of the `for` loop of `fix_same_section_relocations`
(src/encoder/addr.rs lines 46-73): when the guard holds, patch the four
little-endian bytes into the section's code at `instr.addr + offset` and
mark the relocation resolved; otherwise leave both untouched. -/
def fixOne (symbols : List (String × Instr))
    (sections : List (String × UserDefinedSection)) (r : Rela) :
    List (String × UserDefinedSection) × Rela :=
  if relaCond symbols r then
    (mapUpdate sections r.instr.sectionName (fun u =>
        { u with code := patch4 u.code (r.instr.addr + r.offset)
                    (le32 (relaNum32 symbols r)) }),
      { r with isAlreadyResolved := true })
  else (sections, r)

/-- The full loop of `fix_same_section_relocations`, threading the mutable
section map through the relocation list and rebuilding the (in-place
mutated) relocation vector. -/
def fixLoop (symbols : List (String × Instr)) :
    List Rela → List (String × UserDefinedSection) →
      List Rela × List (String × UserDefinedSection)
  | [], sections => ([], sections)
  | r :: rs, sections =>
    let s1 := fixOne symbols sections r
    let rest := fixLoop symbols rs s1.1
    (s1.2 :: rest.1, rest.2)

/-- `fix_same_section_relocations` (src/encoder/addr.rs lines 45-74). -/
def fixSameSectionRelocations (symbols : List (String × Instr))
    (relas : List Rela) (sections : List (String × UserDefinedSection)) :
    List Rela × List (String × UserDefinedSection) :=
  fixLoop symbols relas sections

/-- The relocation site's start within the section's buffer:
`rela.instr.addr + rela.offset`. -/
def writePos (r : Rela) : Nat := r.instr.addr + r.offset

/-- The byte of a named section's buffer at a position. -/
def byteAt (sections : List (String × UserDefinedSection)) (name : String)
    (pos : Nat) : Option Nat :=
  (mapLookup sections name).bind (fun u => u.code[pos]?)

/-! ## Address assignment (src/encoder/addr.rs lines 76-107) -/

/-- `section_flags` (src/encoder/addr.rs lines 10-21): fold the flag string;
an unknown attribute character panics in the source, modelled as `none`. -/
def sectionFlagsOf (flags : String) : Option Nat :=
  flags.data.foldl
    (fun acc c =>
      match acc with
      | none => none
      | some val =>
        match c with
        | 'a' => some (val ||| SHF_ALLOC)
        | 'x' => some (val ||| SHF_EXECINSTR)
        | 'w' => some (val ||| SHF_WRITE)
        | _ => none)
    (some 0)

/-- `change_symbol_binding` (src/encoder/addr.rs lines 23-34): mutate the
named symbol's binding; panics (`none`) when the symbol is undefined or when
a section symbol is made global. -/
def changeSymbolBinding (instr : Instr) (binding : Nat)
    (symbols : List (String × Instr)) : Option (List (String × Instr)) :=
  match mapLookup symbols instr.symbolName with
  | none => none
  | some cached =>
    if binding == STB_GLOBAL && cached.kind == InstrKind.sectionDir then none
    else some (mapUpdate symbols instr.symbolName (fun s => { s with binding := binding }))

/-- `change_symbol_visibility` (src/encoder/addr.rs lines 36-43). -/
def changeSymbolVisibility (instr : Instr) (visibility : Nat)
    (symbols : List (String × Instr)) : Option (List (String × Instr)) :=
  match mapLookup symbols instr.symbolName with
  | none => none
  | some _ =>
    some (mapUpdate symbols instr.symbolName (fun s => { s with visibility := visibility }))

/-- The `match i.kind` directive dispatch inside the assignment loop
(src/encoder/addr.rs lines 89-97); only the section's flag word and the
symbol table are affected, never the section's cursor or code. `none`
propagates the panics of the helpers above. -/
def applyDirective (i : Instr) (symbols : List (String × Instr))
    (sec : UserDefinedSection) :
    Option (List (String × Instr) × UserDefinedSection) :=
  match i.kind with
  | .sectionDir =>
    match sectionFlagsOf i.flags with
    | none => none
    | some v => some (symbols, { sec with flags := v })
  | .globalDir => (changeSymbolBinding i STB_GLOBAL symbols).map (fun s => (s, sec))
  | .localDir => (changeSymbolBinding i STB_LOCAL symbols).map (fun s => (s, sec))
  | .hiddenDir => (changeSymbolVisibility i STV_HIDDEN symbols).map (fun s => (s, sec))
  | .internalDir => (changeSymbolVisibility i STV_INTERNAL symbols).map (fun s => (s, sec))
  | .protectedDir => (changeSymbolVisibility i STV_PROTECTED symbols).map (fun s => (s, sec))
  | .insn => some (symbols, sec)

/-- The inner instruction loop of `assign_addresses` for one section
(src/encoder/addr.rs lines 88-102): each instruction receives
`addr = section.addr`, then the cursor advances by the length of its code
and the code is appended to the section buffer. Returns the instruction
list with addresses assigned, the updated symbol table and the section. -/
def assignSection : List Instr → List (String × Instr) → UserDefinedSection →
    Option (List Instr × List (String × Instr) × UserDefinedSection)
  | [], symbols, sec => some ([], symbols, sec)
  | i :: rest, symbols, sec =>
    match applyDirective i symbols sec with
    | none => none
    | some (symbols1, sec1) =>
      let i' := { i with addr := sec1.addr }
      let sec2 := { sec1 with
                      addr := sec1.addr + i.code.length,
                      code := sec1.code ++ i.code }
      match assignSection rest symbols1 sec2 with
      | none => none
      | some (out, symbols2, sec3) => some (i' :: out, symbols2, sec3)

/-- The address each instruction of a section should receive according to
claim C4: the sum of the code lengths of all preceding instructions of that
section. -/
def specAddrs (instrs : List Instr) : List Nat :=
  (List.range instrs.length).map
    (fun i => ((instrs.take i).map (fun ins => ins.code.length)).sum)

/-! ## ELF64 object writer (src/elf/elf64.rs) -/

/-- `mem::size_of::<Elf64Ehdr>()`: 16 + 2 + 2 + 4 + 8 + 8 + 8 + 4 + 2·6 = 64
bytes for the `#[repr(C)]` struct of src/elf/elf64.rs lines 36-51. -/
def ehdrSize : Nat := 64

/-- `mem::size_of::<Elf64Sym>()`: 4 + 1 + 1 + 2 + 8 + 8 = 24 bytes
(src/elf/elf64.rs lines 55-62). -/
def symEntrySize : Nat := 24

/-- `mem::size_of::<Elf64Rela>()`: 8 + 8 + 8 = 24 bytes
(src/elf/elf64.rs lines 83-87). -/
def relaEntrySize : Nat := 24

/-- `align_to` (src/elf/elf64.rs lines 187-189). -/
def alignTo (n align : Nat) : Nat := (n + align - 1) / align * align

/-- `add_padding` (src/elf/elf64.rs lines 191-194): pad with zero bytes to a
16-byte boundary. -/
def addPaddingBytes (code : List Nat) : List Nat :=
  code ++ List.replicate (alignTo code.length 16 - code.length) 0

/-- The bytes of an ASCII string as the source's `str::as_bytes`. -/
def strBytes (s : String) : List Nat := s.data.map Char.toNat

/-- `Elf64Sym` (src/elf/elf64.rs lines 55-62), fields as `Nat`. -/
structure Elf64Sym where
  stName : Nat
  stInfo : Nat
  stOther : Nat
  stShndx : Nat
  stValue : Nat
  stSize : Nat
deriving DecidableEq, Repr

/-- `Elf64Shdr` (src/elf/elf64.rs lines 67-78), fields as `Nat`. -/
structure Elf64Shdr where
  shName : Nat
  shType : Nat
  shFlags : Nat
  shAddr : Nat
  shOffset : Nat
  shSize : Nat
  shLink : Nat
  shInfo : Nat
  shAddralign : Nat
  shEntsize : Nat
deriving DecidableEq, Repr

/-- `Elf64Rela` (src/elf/elf64.rs lines 83-87); `r_addend` is signed. -/
structure Elf64Rela where
  rOffset : Nat
  rInfo : Nat
  rAddend : Int
deriving DecidableEq, Repr

/-- `Elf::new` (src/elf/elf64.rs lines 170-185): collects the user-defined
section names in the iteration order of the `USER_DEFINED_SECTIONS` hash
map — which is what the `sectionsInIterOrder` parameter represents, being a
run-dependent enumeration of the map — and numbers them from 1. -/
def elfNewSectionNames
    (sectionsInIterOrder : List (String × UserDefinedSection)) : List String :=
  sectionsInIterOrder.map (·.1)

/-- The index table built by `Elf::new`:
`user_defined_section_idx[name] = previous length + 1`. -/
def elfNewSectionIdx
    (sectionsInIterOrder : List (String × UserDefinedSection)) :
    List (String × Nat) :=
  (sectionsInIterOrder.map (·.1)).enum.map (fun p => (p.2, p.1 + 1))

/-- `HashMap::insert` on an association-list model: replaces the value of an
existing key, otherwise appends. -/
def mapInsert {α : Type} (m : List (String × α)) (k : String) (v : α) :
    List (String × α) :=
  if m.any (fun p => p.1 == k) then
    m.map (fun p => if p.1 == k then (p.1, v) else p)
  else m ++ [(k, v)]

/-- `build_shstrtab` (src/elf/elf64.rs lines 343-375): a leading NUL, then
one NUL-terminated name per user-defined section (in `Elf::new`'s order),
then `.strtab`, `.symtab`, `.shstrtab`, then the `.rela<...>` names (in the
`rela` hash map's iteration order), padded to 16 bytes. Returns the
`section_name_offs` table and the byte contents. -/
def buildShstrtab (sectionNames relaNames : List String) :
    List (String × Nat) × List Nat :=
  let step := fun (st : List (String × Nat) × List Nat × Nat) (name : String) =>
    (mapInsert st.1 name st.2.2, (st.2.1 ++ strBytes name ++ [0], st.2.2 + name.length + 1))
  let st := (sectionNames ++ [".strtab", ".symtab", ".shstrtab"] ++ relaNames).foldl
    step ([("", 0)], ([0], 1))
  (st.1, addPaddingBytes st.2.1)

/-- Mutable state threaded through `build_symtab_strtab`'s helpers
(`off`, `string`, `symtab_symbol_indexes`, `local_symbols_count`,
`symtab`, `strtab` of the `Elf` struct, src/elf/elf64.rs lines 8-31). -/
structure SymtabBuild where
  off : Nat
  lastString : String
  indexes : List (String × Nat)
  localCount : Nat
  symtab : List Elf64Sym
  strtab : List Nat
deriving DecidableEq, Repr

/-- One iteration of `elf_symbol`'s loop (src/elf/elf64.rs lines 197-237)
over a `(name, symbol)` pair of the user symbol map: skip on a binding
mismatch; for local symbols, drop `.L`-prefixed labels unless kept and count
the rest; then record the symbol-table row for the name, advance `off` by the
previous name's length + 1, and emit the `Elf64Sym` and the NUL-terminated
name. The missing section index (`user_defined_section_idx[symbol.section]`)
is read with default 0 where the source would panic. -/
def elfSymbolStep (keepLocals : Bool) (sectionIdx : List (String × Nat))
    (symbolBinding : Nat) (st : SymtabBuild) (p : String × Instr) : SymtabBuild :=
  let symbolName := p.1
  let symbol := p.2
  if symbol.binding ≠ symbolBinding then st
  else if symbol.binding == STB_LOCAL && !keepLocals &&
      symbolName.toUpper.startsWith ".L" then st
  else
    let localCount' :=
      if symbol.binding == STB_LOCAL then st.localCount + 1 else st.localCount
    let indexes' := mapInsert st.indexes symbolName st.indexes.length
    let off' := st.off + st.lastString.length + 1
    let stShndx := (mapLookup sectionIdx symbol.sectionName).getD 0
    let stName := if symbol.symbolType == STT_SECTION then 0 else off'
    { off := off'
      lastString := symbolName
      indexes := indexes'
      localCount := localCount'
      symtab := st.symtab ++
        [{ stName := stName
           stInfo := (symbol.binding <<< 4) + (symbol.symbolType &&& 0xf)
           stOther := symbol.visibility
           stShndx := stShndx
           stValue := symbol.addr
           stSize := 0 }]
      strtab := st.strtab ++ strBytes symbolName ++ [0] }

/-- `elf_symbol` (src/elf/elf64.rs lines 197-237), iterating the user symbol
map in hash-map order (the `symbolsInIterOrder` parameter). -/
def elfSymbol (keepLocals : Bool) (sectionIdx : List (String × Nat))
    (symbolsInIterOrder : List (String × Instr)) (symbolBinding : Nat)
    (st : SymtabBuild) : SymtabBuild :=
  symbolsInIterOrder.foldl (elfSymbolStep keepLocals sectionIdx symbolBinding) st

/-- `elf_rela_symbol` (src/elf/elf64.rs lines 239-256): one synthetic
`GLOBAL`/`NOTYPE` undefined symbol per collected rela symbol name. -/
def elfRelaSymbol (relaSymbols : List String) (st : SymtabBuild) : SymtabBuild :=
  relaSymbols.foldl
    (fun st name =>
      let off' := st.off + st.lastString.length + 1
      { off := off'
        lastString := name
        indexes := mapInsert st.indexes name st.indexes.length
        localCount := st.localCount
        symtab := st.symtab ++
          [{ stName := off'
             stInfo := (STB_GLOBAL <<< 4) + (STT_NOTYPE &&& 0xf)
             stOther := 0
             stShndx := 0
             stValue := 0
             stSize := 0 }]
        strtab := st.strtab ++ strBytes name ++ [0] })
    st

/-- `build_symtab_strtab` (src/elf/elf64.rs lines 321-341): the null
symbol and NUL byte first, then local user symbols, then the synthetic rela
symbols, then global user symbols; the string table is padded to 16 bytes. -/
def buildSymtabStrtab (keepLocals : Bool) (sectionIdx : List (String × Nat))
    (symbolsInIterOrder : List (String × Instr)) (relaSymbols : List String) :
    SymtabBuild :=
  let st0 : SymtabBuild :=
    { off := 0
      lastString := ""
      indexes := [("", 0)]
      localCount := 1
      symtab := [{ stName := 0
                   stInfo := (STB_LOCAL <<< 4) + (STT_NOTYPE &&& 0xf)
                   stOther := 0
                   stShndx := 0
                   stValue := 0
                   stSize := 0 }]
      strtab := [0x00] }
  let st1 := elfSymbol keepLocals sectionIdx symbolsInIterOrder STB_LOCAL st0
  let st2 := elfRelaSymbol relaSymbols st1
  let st3 := elfSymbol keepLocals sectionIdx symbolsInIterOrder STB_GLOBAL st2
  { st3 with strtab := addPaddingBytes st3.strtab }

/-- The `r_addend` / symbol-index core of one `rela_text_users` iteration
(src/elf/elf64.rs lines 260-302): the base addend by relocation type
(`offset - code.len()` in wrapping `usize` arithmetic reinterpreted as
`i64` for PC32, 0 for the absolute types, −4 otherwise), then, for a
defined non-global symbol, the owning section's symbol-table row with the
symbol's address folded into the addend; for a defined global or an
undefined symbol, the row of the referenced name itself. -/
def mkRelaEntry (symtabIndexes : List (String × Nat))
    (symbols : List (String × Instr)) (r : Rela) : Elf64Rela :=
  let base : Int :=
    if [R_X86_64_32S, R_X86_64_32, R_X86_64_64, R_X86_64_32, R_X86_64_16,
        R_X86_64_8].contains r.rtype then 0
    else if r.rtype == R_X86_64_PC32 then
      i64wrap ((r.offset : Int) - (r.instr.code.length : Int))
    else -4
  let resolved :=
    match mapLookup symbols r.uses with
    | some s =>
      if s.binding == STB_GLOBAL then ((mapLookup symtabIndexes r.uses).getD 0, base)
      else ((mapLookup symtabIndexes s.sectionName).getD 0, i64wrap (base + s.addr))
    | none => ((mapLookup symtabIndexes r.uses).getD 0, base)
  { rOffset := (r.instr.addr + r.offset) % 2 ^ 64
    rInfo := ((resolved.1 <<< 32) + r.rtype) % 2 ^ 64
    rAddend := i64wrap (resolved.2 + r.adjust) }

/-- `self.rela.entry(name).or_insert_with(Vec::new).push(entry)` on the
association-list model of the `rela` hash map. -/
def relaMapPush (m : List (String × List Elf64Rela)) (k : String)
    (e : Elf64Rela) : List (String × List Elf64Rela) :=
  if m.any (fun p => p.1 == k) then
    m.map (fun p => if p.1 == k then (p.1, p.2 ++ [e]) else p)
  else m ++ [(k, [e])]

/-- The de-duplicating push onto `rela_section_names`
(src/elf/elf64.rs lines 304-306). -/
def namesPush (names : List String) (name : String) : List String :=
  if names.contains name then names else names ++ [name]

/-- `rela_text_users` (src/elf/elf64.rs lines 258-308): walk the pending
relocations in order; those already resolved produce nothing; every other
record appends exactly one `Elf64Rela` to the `.rela<section>` bucket of its
instruction's section and records that section name once. -/
def relaTextUsers (symtabIndexes : List (String × Nat))
    (symbols : List (String × Instr)) :
    List Rela → List (String × List Elf64Rela) × List String →
      List (String × List Elf64Rela) × List String
  | [], st => st
  | r :: rs, st =>
    if r.isAlreadyResolved then relaTextUsers symtabIndexes symbols rs st
    else
      let relaSectionName := ".rela" ++ r.instr.sectionName
      relaTextUsers symtabIndexes symbols rs
        (relaMapPush st.1 relaSectionName (mkRelaEntry symtabIndexes symbols r),
          namesPush st.2 relaSectionName)

/-- What claim C2 asserts each unresolved relocation's `r_info` to be:
`(symbol_index << 32) | relocation_type` with the row of the referenced
symbol's *name*. Claim side of C2, not a translation of the source. -/
def specRInfo (symtabIndexes : List (String × Nat)) (r : Rela) : Nat :=
  (((mapLookup symtabIndexes r.uses).getD 0) <<< 32) + r.rtype

/-- `Elf64Ehdr` (src/elf/elf64.rs lines 36-51), fields as `Nat`. -/
structure Elf64Ehdr where
  eIdent : List Nat
  eType : Nat
  eMachine : Nat
  eVersion : Nat
  eEntry : Nat
  ePhoff : Nat
  eShoff : Nat
  eFlags : Nat
  eEhsize : Nat
  ePhentsize : Nat
  ePhnum : Nat
  eShentsize : Nat
  eShnum : Nat
  eShstrndx : Nat
deriving DecidableEq, Repr

/-- `build_headers` (src/elf/elf64.rs lines 377-497), translated statement
by statement. `section_offs` starts at the ELF header size and is advanced
by each user-defined section's code size — but *not* by the string table or
symbol table — and then by each relocation section's size. Name-offset and
index lookups read with default 0 where the source indexing would panic.
Returns the section header table and the ELF header. -/
def buildHeaders (sectionNames : List String)
    (sections : List (String × UserDefinedSection))
    (nameOffs : List (String × Nat)) (strtab : List Nat)
    (localCount : Nat) (relaMap : List (String × List Elf64Rela))
    (relaNames : List String) (shstrtab : List Nat) :
    List Elf64Shdr × Elf64Ehdr :=
  let nullH : Elf64Shdr :=
    { shName := (mapLookup nameOffs "").getD 0, shType := SHT_NULL, shFlags := 0,
      shAddr := 0, shOffset := 0, shSize := 0, shLink := 0, shInfo := 0,
      shAddralign := 0, shEntsize := 0 }
  let stU := sectionNames.foldl
    (fun (st : List Elf64Shdr × Nat × List (String × Nat)) name =>
      let sec := (mapLookup sections name).getD { code := [], addr := 0, flags := 0 }
      (st.1 ++
          [{ shName := (mapLookup nameOffs name).getD 0, shType := SHT_PROGBITS,
             shFlags := sec.flags, shAddr := 0, shOffset := st.2.1,
             shSize := sec.code.length, shLink := 0, shInfo := 0,
             shAddralign := 1, shEntsize := 0 }],
        st.2.1 + sec.code.length,
        mapInsert st.2.2 name st.2.2.length))
    ([nullH], ehdrSize, [("", 0)])
  let sectionOffs1 := stU.2.1
  let sectionIdx1 := mapInsert stU.2.2 ".strtab" stU.2.2.length
  let strtabH : Elf64Shdr :=
    { shName := (mapLookup nameOffs ".strtab").getD 0, shType := SHT_STRTAB,
      shFlags := 0, shAddr := 0, shOffset := sectionOffs1, shSize := strtab.length,
      shLink := 0, shInfo := 0, shAddralign := 1, shEntsize := 0 }
  let sectionIdx2 := mapInsert sectionIdx1 ".symtab" sectionIdx1.length
  let symtabH : Elf64Shdr :=
    { shName := (mapLookup nameOffs ".symtab").getD 0, shType := SHT_SYMTAB,
      shFlags := 0, shAddr := 0, shOffset := sectionOffs1,
      shSize := symEntrySize * strtab.length,
      shLink := (mapLookup sectionIdx2 ".strtab").getD 0, shInfo := localCount,
      shAddralign := 8, shEntsize := symEntrySize }
  let stR := relaNames.foldl
    (fun (st : List Elf64Shdr × Nat) name =>
      let size := relaEntrySize * ((mapLookup relaMap name).getD []).length
      (st.1 ++
          [{ shName := (mapLookup nameOffs name).getD 0, shType := SHT_RELA,
             shFlags := SHF_INFO_LINK, shAddr := 0, shOffset := st.2,
             shSize := size, shLink := (mapLookup sectionIdx2 ".symtab").getD 0,
             shInfo := (mapLookup sectionIdx2 (name.drop 5)).getD 0,
             shAddralign := 8, shEntsize := relaEntrySize }],
        st.2 + size))
    (stU.1 ++ [strtabH, symtabH], sectionOffs1)
  let shstrH : Elf64Shdr :=
    { shName := (mapLookup nameOffs ".shstrtab").getD 0, shType := SHT_STRTAB,
      shFlags := 0, shAddr := 0, shOffset := stR.2, shSize := shstrtab.length,
      shLink := 0, shInfo := 0, shAddralign := 1, shEntsize := 0 }
  let headers := stR.1 ++ [shstrH]
  (headers,
    { eIdent := [0x7f, 0x45, 0x4c, 0x46, 0x02, 0x01, 0x01, 0, 0, 0, 0, 0, 0, 0, 0, 0]
      eType := 1
      eMachine := 0x3e
      eVersion := 1
      eEntry := 0
      ePhoff := 0
      eShoff := stR.2 + shstrtab.length
      eFlags := 0
      eEhsize := ehdrSize
      ePhentsize := 56
      ePhnum := 0
      eShentsize := 64
      eShnum := headers.length
      eShstrndx := headers.length - 1 })

/-- The total code size of the user-defined sections as `write_elf` emits
them (src/elf/elf64.rs lines 507-515). -/
def sectionsCodeLen (sectionNames : List String)
    (sections : List (String × UserDefinedSection)) : Nat :=
  (sectionNames.map
      (fun n => ((mapLookup sections n).getD { code := [], addr := 0, flags := 0 }).code.length)).sum

/-- The file offset at which `write_elf` (src/elf/elf64.rs lines 499-545)
actually begins writing `.strtab`: ELF header, then every user-defined
section's code. -/
def actualStrtabOffset (sectionNames : List String)
    (sections : List (String × UserDefinedSection)) : Nat :=
  ehdrSize + sectionsCodeLen sectionNames sections

/-- The file offset at which `write_elf` actually begins writing the
`.symtab` entries: directly after `.strtab`'s bytes. -/
def actualSymtabOffset (sectionNames : List String)
    (sections : List (String × UserDefinedSection)) (strtab : List Nat) : Nat :=
  actualStrtabOffset sectionNames sections + strtab.length


/-! ## Concrete instances used by the claim theorems -/

/-- Token kinds on which `parse_factor` can return (without advancing). -/
def isNumOrIdentKind : TokenKind → Bool
  | .number _ => true
  | .ident _ => true
  | _ => false

/-- The token stream of the expression `1-2-3`. -/
def c9tokens : List Token :=
  [{ kind := .number "1", loc := { fileName := "input.s", line := 1 } },
   { kind := .minus, loc := { fileName := "input.s", line := 1 } },
   { kind := .number "2", loc := { fileName := "input.s", line := 1 } },
   { kind := .minus, loc := { fileName := "input.s", line := 1 } },
   { kind := .number "3", loc := { fileName := "input.s", line := 1 } },
   { kind := .eof, loc := { fileName := "input.s", line := 1 } }]

/-- A local symbol `foo` defined at address 0 of `.text`. -/
def c1sym : Instr :=
  { kind := .insn, code := [], symbolName := "foo", flags := "", addr := 0,
    binding := STB_LOCAL, visibility := 0, symbolType := 0,
    sectionName := ".text", isJmpOrCall := true, loc := { fileName := "input.s", line := 1 } }

/-- A 5-byte same-section `call` at address 5 of `.text`. -/
def c1instr : Instr :=
  { kind := .insn, code := [0xe8, 0, 0, 0, 0], symbolName := "", flags := "",
    addr := 5, binding := STB_LOCAL, visibility := 0, symbolType := 0,
    sectionName := ".text", isJmpOrCall := true, loc := { fileName := "input.s", line := 2 } }

/-- The pending relocation of the `call` against `foo`. -/
def c1rela : Rela :=
  { uses := "foo", instr := c1instr, offset := 1, rtype := R_X86_64_PC32,
    adjust := 0, isAlreadyResolved := false }

/-- The symbol table for the C1 witness. -/
def c1syms : List (String × Instr) := [("foo", c1sym)]

/-- The `.text` section buffer (10 bytes) for the C1 witness. -/
def c1secs : List (String × UserDefinedSection) :=
  [(".text", { code := List.replicate 10 0, addr := 10, flags := 6 })]

/-- Three ordinary instructions of 2, 0 and 1 code bytes for the C4 witness. -/
def c4instrs : List Instr :=
  [{ kind := .insn, code := [0x48, 0xc7], symbolName := "", flags := "", addr := 0,
     binding := 0, visibility := 0, symbolType := 0, sectionName := ".text",
     isJmpOrCall := false, loc := { fileName := "input.s", line := 1 } },
   { kind := .insn, code := [], symbolName := "", flags := "", addr := 0,
     binding := 0, visibility := 0, symbolType := 0, sectionName := ".text",
     isJmpOrCall := false, loc := { fileName := "input.s", line := 2 } },
   { kind := .insn, code := [0xc3], symbolName := "", flags := "", addr := 0,
     binding := 0, visibility := 0, symbolType := 0, sectionName := ".text",
     isJmpOrCall := false, loc := { fileName := "input.s", line := 3 } }]

/-- A local symbol `foo` defined at address 16 of `.data` (for C2). -/
def c2sym : Instr :=
  { kind := .insn, code := [], symbolName := "foo", flags := "", addr := 16,
    binding := STB_LOCAL, visibility := 0, symbolType := 0,
    sectionName := ".data", isJmpOrCall := false, loc := { fileName := "input.s", line := 1 } }

/-- A 10-byte `.text` instruction referencing `foo` absolutely (for C2). -/
def c2instr : Instr :=
  { kind := .insn, code := [0x48, 0xb8, 0, 0, 0, 0, 0, 0, 0, 0], symbolName := "",
    flags := "", addr := 0, binding := 0, visibility := 0, symbolType := 0,
    sectionName := ".text", isJmpOrCall := false, loc := { fileName := "input.s", line := 2 } }

/-- The unresolved 64-bit absolute relocation against `foo` (for C2). -/
def c2rela : Rela :=
  { uses := "foo", instr := c2instr, offset := 2, rtype := R_X86_64_64,
    adjust := 0, isAlreadyResolved := false }

/-- A symbol-index table in which `foo` and its section `.data` occupy
different rows (for C2). -/
def c2idx : List (String × Nat) :=
  [("", 0), (".text", 1), (".data", 2), ("foo", 3)]

/-- Two sections with distinct contents (for C3). -/
def c3secText : UserDefinedSection := { code := [0xc3], addr := 1, flags := 6 }

/-- The second section of the C3 counterexample. -/
def c3secData : UserDefinedSection := { code := [1, 2], addr := 2, flags := 3 }

/-- The symbol-table/string-table build of the empty program (for C6). -/
def c6sb : SymtabBuild := buildSymtabStrtab false [] [] []

/-- The section-name string table of the empty program (for C6). -/
def c6shstr : List (String × Nat) × List Nat := buildShstrtab [] []

/-- The section headers the empty program's `build_headers` emits (for C6). -/
def c6headers : List Elf64Shdr :=
  (buildHeaders [] [] c6shstr.1 c6sb.strtab c6sb.localCount [] [] c6shstr.2).1

/-- The instruction list of `c4instrs` with the addresses the assignment
pass computes (0, 2, 2). -/
def c4assigned : List Instr :=
  [{ kind := .insn, code := [0x48, 0xc7], symbolName := "", flags := "", addr := 0,
     binding := 0, visibility := 0, symbolType := 0, sectionName := ".text",
     isJmpOrCall := false, loc := { fileName := "input.s", line := 1 } },
   { kind := .insn, code := [], symbolName := "", flags := "", addr := 2,
     binding := 0, visibility := 0, symbolType := 0, sectionName := ".text",
     isJmpOrCall := false, loc := { fileName := "input.s", line := 2 } },
   { kind := .insn, code := [0xc3], symbolName := "", flags := "", addr := 2,
     binding := 0, visibility := 0, symbolType := 0, sectionName := ".text",
     isJmpOrCall := false, loc := { fileName := "input.s", line := 3 } }]

/-! ## Helper lemmas -/

/-- Every entry of the general-register table carries its key as its `lit`
field. -/
theorem generalRegistersLitEq :
    GENERAL_REGISTERS.all (fun p => p.2.lit == p.1) = true := by decide

/-- A found peek implies the cursor is in bounds. -/
theorem peekN_found_lt {n : Nat} {tokens : List Token} {t : Token}
    (h : peekN n tokens = .found t) : n < tokens.length := by
  unfold peekN at h
  cases hg : tokens[n]? with
  | none => rw [hg] at h; cases h
  | some u =>
    obtain ⟨hlt, -⟩ := List.getElem?_eq_some.mp hg
    exact hlt

/-- A successful `parse_factor` leaves the cursor on a number or identifier
token: the `Number`/`Ident` arms do not advance past their own token. -/
theorem parseFactor_ok_kind :
    ∀ (fuel i : Nat) (tokens : List Token) (e : Expr) (i' : Nat),
      parseFactor fuel i tokens = .ok e i' →
      ∃ t, peekN i' tokens = .found t ∧ isNumOrIdentKind t.kind = true := by
  intro fuel
  induction fuel with
  | zero => intro i tokens e i' h; simp [parseFactor] at h
  | succ n ih =>
    intro i tokens e i' h
    unfold parseFactor at h
    split at h
    · cases h
    next cur hp =>
      split at h
      next s hk =>
        cases h
        exact ⟨cur, hp, by rw [hk]; rfl⟩
      next s hk =>
        cases h
        exact ⟨cur, hp, by rw [hk]; rfl⟩
      next hk =>
        split at h
        next e0 i0 hr =>
          cases h
          exact ih (i + 1) tokens e0 i' hr
        next => cases h
        next => cases h
      next => cases h

/-- `parse_expr` never succeeds: after a successful factor the cursor still
sits on the factor's number/identifier token, which is not a binary
operator, so the operator match always falls through to the error arm. -/
theorem parseExprNeverOk (fuel i : Nat) (tokens : List Token) :
    (parseExpr fuel i tokens).isOk = false := by
  cases fuel with
  | zero => rfl
  | succ n =>
    unfold parseExpr
    cases hf : parseFactor (n + 1) i tokens with
    | err l m => rfl
    | crash => rfl
    | ok e i1 =>
      obtain ⟨t, hp, hk⟩ := parseFactor_ok_kind (n + 1) i tokens e i1 hf
      dsimp only
      rw [hp]
      dsimp only
      cases hkind : t.kind <;>
        first
          | rfl
          | simp [isNumOrIdentKind, hkind] at hk

/-- A successful `parse_register` ends with the cursor in bounds (it sits on
the register-name token that was just peeked). -/
theorem parseRegister_ok_lt {i : Nat} {tokens : List Token} {e : Expr} {i' : Nat}
    (h : parseRegister i tokens = .ok e i') : i' < tokens.length := by
  unfold parseRegister at h
  split at h
  · cases h
  next cur hp =>
    split at h
    · cases h
    next nxt hp2 =>
      split at h
      next regName hk =>
        split at h
        next x hx => cases h; exact peekN_found_lt hp2
        next ex hx =>
          split at h
          next r hr => cases h; exact peekN_found_lt hp2
          next er hr => cases h
      next => cases h

/-- A successful `expect` ends with the cursor in bounds. -/
theorem expect_ok_lt {k : TokenKind} {i : Nat} {tokens : List Token} {a : Unit}
    {i' : Nat} (h : expect k i tokens = .ok a i') : i' < tokens.length := by
  unfold expect at h
  split at h
  · cases h
  next t hp =>
    split at h
    · cases h; exact peekN_found_lt hp
    · cases h

/-- A successful `parse_indirect` ends with the cursor in bounds; the
non-parenthesis entry path would need a successful `parse_expr` and is
impossible. -/
theorem parseIndirect_ok_lt {fuel i : Nat} {tokens : List Token} {e : Expr}
    {i' : Nat} (h : parseIndirect fuel i tokens = .ok e i') : i' < tokens.length := by
  unfold parseIndirect at h
  split at h
  · cases h
  next first hp =>
    split at h
    next l m heq => cases h
    next heq => cases h
    next expr i1 heq =>
      split at h
      next hne =>
        -- `first.kind != (` is true, so the displacement came from
        -- `parse_expr`, contradicting `parseExprNeverOk`.
        have hbeq : (first.kind == TokenKind.lparen) = false := by
          simpa [bne] using hne
        rw [if_neg (by simp [hbeq])] at heq
        have hno := parseExprNeverOk fuel i tokens
        rw [heq] at hno
        cases hno
      next hne =>
        split at h
        · cases h
        next nxt hp2 =>
          split at h
          next hcomma =>
            split at h
            next l m heq2 => cases h
            next heq2 => cases h
            next base i2 heq2 =>
              split at h
              next l m heq3 => cases h
              next heq3 => cases h
              next index i3 heq3 =>
                split at h
                next l m heq4 => cases h
                next heq4 => cases h
                next scale i4 heq4 =>
                  split at h
                  next l m heq5 => cases h
                  next heq5 => cases h
                  next u i5 heq5 =>
                    cases h
                    exact expect_ok_lt heq5
          next hcomma =>
            cases h
            exact peekN_found_lt hp2

/-- A successful `parse_operand` ends with the cursor strictly inside the
token list. -/
theorem parseOperand_ok_lt {fuel i : Nat} {tokens : List Token} {e : Expr}
    {i' : Nat} (h : parseOperand fuel i tokens = .ok e i') : i' < tokens.length := by
  unfold parseOperand at h
  split at h
  · cases h
  next cur hp =>
    split at h
    · -- dolor: immediate via parse_expr, which never succeeds
      rename_i hk
      split at h
      next e0 i0 heq =>
        have hno := parseExprNeverOk fuel (i + 1) tokens
        rw [heq] at hno
        cases hno
      next l m heq => cases h
      next heq => cases h
    · exact parseRegister_ok_lt h
    · -- star register
      split at h
      next e0 i0 heq => cases h; exact parseRegister_ok_lt heq
      next l m heq => cases h
      next heq => cases h
    · exact parseIndirect_ok_lt h
    · cases h

/-- The driver loop can never return successfully: the loop guard admits
`index = tokens.len()`, where `parse_operand` immediately panics inside
`peek_n`; before that, every successful operand leaves the cursor in
bounds, so the guard holds again at the next iteration. -/
theorem parseLoopNeverOk :
    ∀ (iter fuel i : Nat) (tokens : List Token), i ≤ tokens.length →
      (parseLoop fuel iter i tokens).isOk = false := by
  intro iter
  induction iter with
  | zero => intro fuel i tokens h; rfl
  | succ n ih =>
    intro fuel i tokens h
    unfold parseLoop
    rw [if_pos h]
    cases hop : parseOperand fuel i tokens with
    | ok e i' => exact ih fuel (i' + 1) tokens (parseOperand_ok_lt hop)
    | err l m => rfl
    | crash => rfl

/-! ## Claim theorems: expression evaluation (C7) -/

/-- Claim C7 counterexample: the expression `a + b` has two free
identifiers, yet `eval_expr` silently returns the value 0 (each identifier
contributes 0) instead of signalling an encoding error; the collected
identifier array — which `eval_expr` discards unchecked — indeed holds both
names. -/
theorem c7_counterexample :
    evalExpr (.binop (.ident "a") (.ident "b") .plus) = .ok 0 ∧
    (evalExprGetSymbol64 (.binop (.ident "a") (.ident "b") .plus) []).2 = ["a", "b"] :=
  ⟨rfl, rfl⟩

/-- Claim C7 (amended): on the arithmetic fragment it evaluates (numbers
that parse, identifiers, unary minus, `+ - * /` with non-panicking
divisions, immediates), `eval_expr_get_symbol_64` returns the concrete
integer obtained by treating every free identifier as 0 and appends the
free identifiers to the array left to right — regardless of whether the
expression has zero, one, or several free identifiers; no error is
signalled for multiple unresolved identifiers. -/
theorem c7_theorem :
    ∀ (e : Expr) (v : Int) (l arr : List String),
      semExpr e = some (v, l) →
      evalExprGetSymbol64 e arr = (.ok v, arr ++ l)
  | .num s, v, l, arr, h => by
    simp only [semExpr, Option.map_eq_some'] at h
    obtain ⟨a, ha, hp⟩ := h
    cases hp
    simp [evalExprGetSymbol64, ha]
  | .ident s, v, l, arr, h => by
    simp only [semExpr, Option.some.injEq] at h
    cases h
    simp [evalExprGetSymbol64]
  | .neg e, v, l, arr, h => by
    simp only [semExpr, Option.map_eq_some'] at h
    obtain ⟨⟨v0, l0⟩, h0, hp⟩ := h
    cases hp
    have ih := c7_theorem e v0 l0 arr h0
    simp [evalExprGetSymbol64, ih]
  | .binop el er op, v, l, arr, h => by
    cases op with
    | plus =>
      simp only [semExpr] at h
      split at h
      next a b ha hb =>
        obtain ⟨a1, la⟩ := a
        obtain ⟨b1, lb⟩ := b
        simp only [Option.some.injEq] at h
        cases h
        have ih1 := c7_theorem el a1 la arr ha
        have ih2 := c7_theorem er b1 lb (arr ++ la) hb
        simp [evalExprGetSymbol64, ih1, ih2, List.append_assoc]
      next => cases h
    | minus =>
      simp only [semExpr] at h
      split at h
      next a b ha hb =>
        obtain ⟨a1, la⟩ := a
        obtain ⟨b1, lb⟩ := b
        simp only [Option.some.injEq] at h
        cases h
        have ih1 := c7_theorem el a1 la arr ha
        have ih2 := c7_theorem er b1 lb (arr ++ la) hb
        simp [evalExprGetSymbol64, ih1, ih2, List.append_assoc]
      next => cases h
    | mul =>
      simp only [semExpr] at h
      split at h
      next a b ha hb =>
        obtain ⟨a1, la⟩ := a
        obtain ⟨b1, lb⟩ := b
        simp only [Option.some.injEq] at h
        cases h
        have ih1 := c7_theorem el a1 la arr ha
        have ih2 := c7_theorem er b1 lb (arr ++ la) hb
        simp [evalExprGetSymbol64, ih1, ih2, List.append_assoc]
      next => cases h
    | div =>
      simp only [semExpr] at h
      split at h
      next a b ha hb =>
        obtain ⟨a1, la⟩ := a
        obtain ⟨b1, lb⟩ := b
        have ih1 := c7_theorem el a1 la arr ha
        have ih2 := c7_theorem er b1 lb (arr ++ la) hb
        by_cases hz : b1 = 0 ∨ (a1 = -(2 ^ 63) ∧ b1 = -1)
        · rw [if_pos hz] at h; cases h
        · rw [if_neg hz] at h
          simp only [Option.some.injEq] at h
          cases h
          simp [evalExprGetSymbol64, ih1, ih2, List.append_assoc, if_neg hz]
          push_neg at hz
          refine ⟨hz.1, fun hm => hz.2 ?_⟩
          rw [hm]; norm_num
      next => cases h
    | ident s => simp [semExpr] at h
    | number s => simp [semExpr] at h
    | comma => simp [semExpr] at h
    | lparen => simp [semExpr] at h
    | rparen => simp [semExpr] at h
    | percent => simp [semExpr] at h
    | dolor => simp [semExpr] at h
    | eof => simp [semExpr] at h
  | .immediate e, v, l, arr, h => by
    simp only [semExpr] at h
    have ih := c7_theorem e v l arr h
    simpa [evalExprGetSymbol64] using ih
  | .indirection d b ix sc hb his, v, l, arr, h => by simp [semExpr] at h
  | .register r, v, l, arr, h => by simp [semExpr] at h
  | .xmm r, v, l, arr, h => by simp [semExpr] at h
  | .star e, v, l, arr, h => by simp [semExpr] at h

/-- Witness for C7 at the two-identifier expression `x - y`: the semantic
side evaluates by `rfl`, and the theorem yields the silent value 0 with
both identifiers collected. -/
theorem c7_witness :
    evalExprGetSymbol64 (.binop (.ident "x") (.ident "y") .minus) [] =
      (.ok 0, ["x", "y"]) :=
  c7_theorem (.binop (.ident "x") (.ident "y") .minus) 0 ["x", "y"] [] rfl

/-! ## Claim theorems: operand parsing (C8, C9) -/

/-- Claim C8 (code bug evaluated): operand parsing does not return a
recoverable error at or past the end of the token sequence — it panics.
`peek_n`'s error arm indexes `tokens[n]` out of bounds, so any cursor at or
beyond the end panics (first conjunct); `parse_operand` on an empty token
sequence panics immediately (second conjunct); and the driver loop, whose
guard `index <= tokens.len()` always eventually admits the panicking
position, can never terminate successfully (third conjunct). -/
theorem c8_theorem :
    (∀ (tokens : List Token) (n : Nat), tokens.length ≤ n →
      peekN n tokens = .oobPanic) ∧
    parseOperand 16 0 [] = .crash ∧
    (∀ (fuel iter i : Nat) (tokens : List Token), i ≤ tokens.length →
      (parseLoop fuel iter i tokens).isOk = false) := by
  refine ⟨?_, rfl, ?_⟩
  · intro tokens n h
    unfold peekN
    rw [List.getElem?_eq_none h]
  · intro fuel iter i tokens h
    exact parseLoopNeverOk iter fuel i tokens h

/-- Witness for C8 at the empty token sequence and cursor 0. -/
theorem c8_witness :
    peekN 0 ([] : List Token) = .oobPanic ∧
    (parseLoop 16 3 0 ([] : List Token)).isOk = false :=
  ⟨c8_theorem.1 [] 0 (Nat.le_refl 0), c8_theorem.2.2 16 3 0 [] (Nat.le_refl 0)⟩

/-- Claim C9 counterexample: parsing the token stream of `1-2-3` does not
produce a left-associative tree evaluating to −4 — it fails outright with a
syntax error: `parse_factor` leaves the cursor on the `1` token, and
`parse_expr` then demands a binary operator at that same position. -/
theorem c9_counterexample :
    parseExpr 16 0 c9tokens =
      .err (some { fileName := "input.s", line := 1 }) "Unexpected token kind" ∧
    (parseExpr 16 0 c9tokens).isOk = false :=
  ⟨rfl, rfl⟩

/-- Claim C9 (amended): binary operator parsing is right-recursive, not
left-associative, and `parse_factor` never consumes its number/identifier
token, so `parse_expr` — which expects an operator at the factor's own
cursor position — never succeeds on any token stream, for any cursor and
any fuel; in particular `1-2-3` yields an error rather than the value −4. -/
theorem c9_theorem (fuel i : Nat) (tokens : List Token) :
    (parseExpr fuel i tokens).isOk = false :=
  parseExprNeverOk fuel i tokens

/-! ## Claim theorems: REX prefix (C5) and register table (C10) -/

/-- With single-bit inputs, the REX byte is `0x40` plus the linear
combination of its W/R/X/B bits, and lies in the REX range. -/
theorem rex_linear (w r x b : Nat) (hw : w ≤ 1) (hr : r ≤ 1) (hx : x ≤ 1)
    (hb : b ≤ 1) :
    rex w r x b = 64 + 8 * w + 4 * r + 2 * x + b ∧ isRexByte (rex w r x b) = true := by
  interval_cases w <;> interval_cases r <;> interval_cases x <;>
    interval_cases b <;> exact ⟨rfl, rfl⟩

/-- The size/SIMD prefixes 0x66, 0xF3, 0xF2 are not REX bytes, so filtering
an optional singleton of one of them for REX bytes gives nothing. -/
theorem filter_nonrex (c : Prop) [Decidable c] (v : Nat)
    (hv : isRexByte v = false) :
    (if c then [v] else []).filter isRexByte = [] := by
  split <;> simp [List.filter, hv]

/-- Claim C5 (amended): the prefix emitter appends exactly one REX byte —
whose value is `0x40` plus the W/R/X/B bits, W from a Quad size suffix, R/X/B
from reg/index/base offsets ≥ 8 — precisely when W, R, X or B is nonzero or
the *reg* or *r/m-base* register requires REX; the `rex_required` flag of the
index register is ignored by the source, so a forced-REX register used only
as the index does not make a REX byte appear. -/
theorem c5_theorem (regR regI regB : Register) (sizes : List DataSizeSuffix) :
    (addPrefix regR regI regB sizes).filter isRexByte =
      (if sizes.contains .quad ∨ 8 ≤ regR.baseOffset ∨ 8 ≤ regI.baseOffset ∨
          8 ≤ regB.baseOffset ∨ regR.rexRequired = true ∨ regB.rexRequired = true
       then [64 + 8 * (if sizes.contains .quad then 1 else 0)
              + 4 * (if 8 ≤ regR.baseOffset then 1 else 0)
              + 2 * (if 8 ≤ regI.baseOffset then 1 else 0)
              + (if 8 ≤ regB.baseOffset then 1 else 0)]
       else []) := by
  unfold addPrefix
  rw [List.filter_append, List.filter_append, List.filter_append]
  rw [filter_nonrex (sizes.contains DataSizeSuffix.word = true) OPERAND_SIZE_PREFIX16 rfl,
    filter_nonrex (sizes.contains DataSizeSuffix.single = true) 0xf3 rfl,
    filter_nonrex (sizes.contains DataSizeSuffix.double = true) 0xf2 rfl]
  simp only [List.nil_append]
  by_cases hq : DataSizeSuffix.quad ∈ sizes <;>
    by_cases hr8 : 8 ≤ regR.baseOffset <;>
      by_cases hx8 : 8 ≤ regI.baseOffset <;>
        by_cases hb8 : 8 ≤ regB.baseOffset <;>
          by_cases hrr : regR.rexRequired = true <;>
            by_cases hbr : regB.rexRequired = true <;>
              simp [hq, hr8, hx8, hb8, hrr, hbr, rex, List.filter, isRexByte]

/-- Claim C5 counterexample: with `SIL` (a forced-REX byte register) as the
*index* register and plain `AL` as reg and base, no size suffixes, the claim
demands a REX prefix, but `add_prefix` emits no byte at all: the source only
consults `reg_r.rex_required` and `reg_b.rex_required`. -/
theorem c5_counterexample :
    getRegInfoBy "SIL" =
      .ok { lit := "SIL", size := .byte, baseOffset := 6, rexRequired := true } ∧
    getRegInfoBy "AL" =
      .ok { lit := "AL", size := .byte, baseOffset := 0, rexRequired := false } ∧
    specForcedRexUsed { lit := "AL", size := .byte, baseOffset := 0, rexRequired := false }
      { lit := "SIL", size := .byte, baseOffset := 6, rexRequired := true }
      { lit := "AL", size := .byte, baseOffset := 0, rexRequired := false } = true ∧
    addPrefix { lit := "AL", size := .byte, baseOffset := 0, rexRequired := false }
      { lit := "SIL", size := .byte, baseOffset := 6, rexRequired := true }
      { lit := "AL", size := .byte, baseOffset := 0, rexRequired := false } [] = [] ∧
    (addPrefix { lit := "AL", size := .byte, baseOffset := 0, rexRequired := false }
      { lit := "SIL", size := .byte, baseOffset := 6, rexRequired := true }
      { lit := "AL", size := .byte, baseOffset := 0, rexRequired := false } []).any
        isRexByte = false :=
  ⟨rfl, rfl, rfl, rfl, rfl⟩

/-- Claim C10: looking up `"BP"` returns the first of the two `"BP"` rows of
the 72-entry table — the 16-bit register (base offset 5, Word width); the
table does contain a second, Byte-width `"BP"` row, but no query can ever
make `get_reg_info_by` return it, since `find` yields the first match. -/
theorem c10_theorem :
    getRegInfoBy "BP" =
      .ok { lit := "BP", size := .word, baseOffset := 5, rexRequired := false } ∧
    (GENERAL_REGISTERS.filter (fun p => p.1 == "BP")).map (·.2) =
      [{ lit := "BP", size := .word, baseOffset := 5, rexRequired := false },
       { lit := "BP", size := .byte, baseOffset := 5, rexRequired := false }] ∧
    ∀ s, getRegInfoBy s ≠
      .ok { lit := "BP", size := .byte, baseOffset := 5, rexRequired := false } := by
  refine ⟨rfl, rfl, ?_⟩
  intro s h
  unfold getRegInfoBy at h
  cases hf : GENERAL_REGISTERS.find? (fun p => p.1 == s) with
  | none => rw [hf] at h; cases h
  | some v =>
    rw [hf] at h
    simp only [Except.ok.injEq] at h
    have hkey : (v.1 == s) = true := by simpa using List.find?_some hf
    have hmem : v ∈ GENERAL_REGISTERS := List.mem_of_find?_eq_some hf
    have hlit : (v.2.lit == v.1) = true := List.all_eq_true.mp generalRegistersLitEq v hmem
    have hs : s = "BP" := by
      have h1 : v.1 = s := eq_of_beq hkey
      have h2 : v.2.lit = v.1 := eq_of_beq hlit
      rw [← h1, ← h2, h]
    subst hs
    have : GENERAL_REGISTERS.find? (fun p => p.1 == "BP") =
        some ("BP", { lit := "BP", size := .word, baseOffset := 5, rexRequired := false }) := rfl
    rw [this] at hf
    cases hf
    cases h

/-- Witness for C10: applying the theorem's universal part at the query
`"BP"` itself. -/
theorem c10_witness :
    getRegInfoBy "BP" ≠
      .ok { lit := "BP", size := .byte, baseOffset := 5, rexRequired := false } :=
  c10_theorem.2.2 "BP"

/-! ## Claim theorems: writer determinism (C3) and header layout (C6) -/

/-- Claim C3 counterexample: two enumerations of the *same* section table
(the association lists are permutations of each other, i.e. equal as maps)
produce different `.shstrtab` bytes, because `Elf::new` takes the section
names in the hash map's run-dependent iteration order; the serialized file
is therefore not a function of the table contents alone. -/
theorem c3_counterexample :
    [(".text", c3secText), (".data", c3secData)].Perm
      [(".data", c3secData), (".text", c3secText)] ∧
    (buildShstrtab
        (elfNewSectionNames [(".text", c3secText), (".data", c3secData)]) []).2 ≠
      (buildShstrtab
        (elfNewSectionNames [(".data", c3secData), (".text", c3secText)]) []).2 :=
  ⟨by decide, by decide⟩

/-- Claim C3 (amended): the serialized bytes are a deterministic function of
the table contents *together with* the hash maps' iteration orders; only
when the order is forced — e.g. a single user-defined section, where every
enumeration of the same one-entry table is the same list — is the output
independent of the enumeration. -/
theorem c3_theorem (l : List (String × UserDefinedSection))
    (x : String × UserDefinedSection) (relaNames : List String)
    (h : l.Perm [x]) :
    buildShstrtab (elfNewSectionNames l) relaNames =
      buildShstrtab (elfNewSectionNames [x]) relaNames := by
  rw [List.perm_singleton.mp h]

/-- Witness for C3 at a one-section table. -/
theorem c3_witness :
    buildShstrtab (elfNewSectionNames [(".text", c3secText)]) [] =
      buildShstrtab (elfNewSectionNames [(".text", c3secText)]) [] :=
  c3_theorem [(".text", c3secText)] (".text", c3secText) [] (List.Perm.refl _)

/-- Claim C6 (code bug evaluated): for the empty program the builder
produces a single-entry symbol table and a 16-byte string table, yet the
`.symtab` section header records `sh_size = 24 * 16 = 384` — the entry size
times the *string table's byte length* (`mem::size_of::<Elf64Sym>() *
self.strtab.len()`) instead of times the symbol count — and
`sh_offset = 64`, the same offset as `.strtab`, although `write_elf` puts
the symbol-table bytes at offset 80, after `.strtab`'s 16 bytes
(`section_offs` is never advanced past the string/symbol tables). -/
theorem c6_theorem :
    c6sb.symtab.length = 1 ∧
    c6sb.strtab.length = 16 ∧
    c6headers[2]? = some
      { shName := 9, shType := SHT_SYMTAB, shFlags := 0, shAddr := 0,
        shOffset := 64, shSize := 384, shLink := 1, shInfo := 1,
        shAddralign := 8, shEntsize := 24 } ∧
    symEntrySize * c6sb.symtab.length = 24 ∧
    (384 : Nat) ≠ 24 ∧
    actualSymtabOffset [] [] c6sb.strtab = 80 ∧
    (64 : Nat) ≠ 80 :=
  ⟨rfl, rfl, rfl, rfl, by decide, rfl, by decide⟩

/-! ## Claim theorems: address assignment (C4) -/

/-- Directive dispatch never touches the section's cursor or code buffer. -/
theorem applyDirective_preserves {i : Instr} {symbols : List (String × Instr)}
    {sec : UserDefinedSection} {s' : List (String × Instr)}
    {sec' : UserDefinedSection}
    (h : applyDirective i symbols sec = some (s', sec')) :
    sec'.addr = sec.addr ∧ sec'.code = sec.code := by
  unfold applyDirective at h
  split at h
  · split at h
    · cases h
    · simp only [Option.some.injEq, Prod.mk.injEq] at h
      obtain ⟨-, h2⟩ := h
      rw [← h2]
      exact ⟨rfl, rfl⟩
  · obtain ⟨s0, -, h2⟩ := Option.map_eq_some'.mp h
    cases h2
    exact ⟨rfl, rfl⟩
  · obtain ⟨s0, -, h2⟩ := Option.map_eq_some'.mp h
    cases h2
    exact ⟨rfl, rfl⟩
  · obtain ⟨s0, -, h2⟩ := Option.map_eq_some'.mp h
    cases h2
    exact ⟨rfl, rfl⟩
  · obtain ⟨s0, -, h2⟩ := Option.map_eq_some'.mp h
    cases h2
    exact ⟨rfl, rfl⟩
  · obtain ⟨s0, -, h2⟩ := Option.map_eq_some'.mp h
    cases h2
    exact ⟨rfl, rfl⟩
  · simp only [Option.some.injEq, Prod.mk.injEq] at h
    obtain ⟨-, h2⟩ := h
    rw [← h2]
    exact ⟨rfl, rfl⟩

/-- Prefix sums of `take` are monotone. -/
theorem take_sum_mono (xs : List Nat) {i j : Nat} (h : i ≤ j) :
    (xs.take i).sum ≤ (xs.take j).sum := by
  have h1 : xs.take i = (xs.take j).take i := by
    rw [List.take_take, Nat.min_eq_left h]
  calc (xs.take i).sum = ((xs.take j).take i).sum := by rw [h1]
    _ ≤ ((xs.take j).take i).sum + ((xs.take j).drop i).sum := Nat.le_add_right _ _
    _ = (xs.take j).sum := by rw [← List.sum_append, List.take_append_drop]

/-- The inner assignment loop: addresses are the running cursor (initial
cursor plus the prefix sums of the code lengths), the buffer is extended by
the concatenation of the instruction codes, and the final cursor advanced
by their total length. -/
theorem assignSection_spec :
    ∀ (instrs : List Instr) (symbols : List (String × Instr))
      (sec : UserDefinedSection) (out : List Instr)
      (symbols' : List (String × Instr)) (sec' : UserDefinedSection),
      assignSection instrs symbols sec = some (out, symbols', sec') →
      out.map (·.addr) =
        (List.range instrs.length).map
          (fun k => sec.addr + ((instrs.take k).map (fun ins => ins.code.length)).sum) ∧
      sec'.code = sec.code ++ (instrs.map (·.code)).flatten ∧
      sec'.addr = sec.addr + (instrs.map (fun ins => ins.code.length)).sum := by
  intro instrs
  induction instrs with
  | nil =>
    intro symbols sec out symbols' sec' h
    simp only [assignSection, Option.some.injEq, Prod.mk.injEq] at h
    obtain ⟨h1, h2, h3⟩ := h
    subst h1; subst h2; subst h3
    simp
  | cons i rest ih =>
    intro symbols sec out symbols' sec' h
    unfold assignSection at h
    split at h
    · cases h
    next symbols1 sec1 hdir =>
      dsimp only at h
      split at h
      · cases h
      next out0 symbols2 sec3 hrec =>
        simp only [Option.some.injEq, Prod.mk.injEq] at h
        obtain ⟨h1, h2, h3⟩ := h
        subst h1; subst h2; subst h3
        obtain ⟨hp1, hp2⟩ := applyDirective_preserves hdir
        obtain ⟨ih1, ih2, ih3⟩ := ih symbols1 _ out0 _ _ hrec
        refine ⟨?_, ?_, ?_⟩
        · simp only [List.map_cons]
          rw [ih1]
          simp only [List.length_cons, List.range_succ_eq_map, List.map_cons,
            List.map_map]
          congr 1
          simp [hp1, Function.comp, List.take_succ_cons, Nat.add_assoc]
        · simp only [ih2, List.map_cons, List.flatten_cons, hp2]
          rw [List.append_assoc]
        · simp only [ih3, hp1, List.map_cons, List.sum_cons]
          omega

/-- Claim C4: starting a section from the default (empty buffer, cursor 0),
every instruction's assigned address is the sum of the code lengths of all
preceding instructions of that section — so zero-length directive
instructions leave the cursor unchanged — the section's buffer is the
concatenation of the instruction codes in order, and the assigned addresses
never decrease. -/
theorem c4_theorem (instrs : List Instr) (symbols : List (String × Instr))
    (out : List Instr) (symbols' : List (String × Instr))
    (sec' : UserDefinedSection)
    (h : assignSection instrs symbols { code := [], addr := 0, flags := 0 } =
      some (out, symbols', sec')) :
    out.map (·.addr) = specAddrs instrs ∧
    sec'.code = (instrs.map (·.code)).flatten ∧
    List.Pairwise (· ≤ ·) (out.map (·.addr)) := by
  obtain ⟨h1, h2, h3⟩ := assignSection_spec instrs symbols _ out symbols' sec' h
  have haddr : out.map (·.addr) = specAddrs instrs := by
    rw [h1]; simp [specAddrs]
  refine ⟨haddr, by simpa using h2, ?_⟩
  rw [haddr]
  unfold specAddrs
  rw [List.pairwise_map]
  refine (List.pairwise_lt_range _).imp ?_
  intro a b hlt
  rw [List.map_take, List.map_take]
  exact take_sum_mono _ (Nat.le_of_lt hlt)

/-- Witness for C4 at three concrete instructions of sizes 2, 0 and 1. -/
theorem c4_witness :
    (c4assigned.map (·.addr) = specAddrs c4instrs) ∧
    ({ code := [0x48, 0xc7, 0xc3], addr := 3, flags := 0 } :
        UserDefinedSection).code = (c4instrs.map (·.code)).flatten ∧
    List.Pairwise (· ≤ ·) (c4assigned.map (·.addr)) :=
  c4_theorem c4instrs [] c4assigned []
    { code := [0x48, 0xc7, 0xc3], addr := 3, flags := 0 } rfl

/-! ## Claim theorems: relocation output (C2) -/

/-- A list with no key match finds nothing. -/
theorem find?_eq_none_of_any_false {α : Type} {m : List (String × α)} {k : String}
    (h : m.any (fun p => p.1 == k) = false) :
    m.find? (fun p => p.1 == k) = none :=
  List.find?_eq_none.mpr (fun x hx => by
    have := List.any_eq_false.mp h x hx
    simpa using this)

/-- The per-entry rewrite of `relaMapPush` keeps every key. -/
theorem relaMapPush_pred_comp (k k' : String) (e : Elf64Rela) :
    ((fun (p : String × List Elf64Rela) => p.1 == k') ∘
        (fun p => if p.1 == k then (p.1, p.2 ++ [e]) else p)) =
      (fun p => p.1 == k') := by
  funext p
  by_cases hpk : (p.1 == k) = true <;> simp [Function.comp, hpk]

/-- Pushing onto a `.rela` bucket appends to that key's list. -/
theorem mapLookup_relaMapPush_self (m : List (String × List Elf64Rela))
    (k : String) (e : Elf64Rela) :
    mapLookup (relaMapPush m k e) k = some ((mapLookup m k).getD [] ++ [e]) := by
  unfold relaMapPush
  cases hany : m.any (fun p => p.1 == k) with
  | false =>
    rw [if_neg (by simp [hany])]
    unfold mapLookup
    rw [List.find?_append, find?_eq_none_of_any_false hany]
    simp [List.find?_cons]
  | true =>
    rw [if_pos (by simp [hany])]
    unfold mapLookup
    rw [List.find?_map, relaMapPush_pred_comp k k e]
    have hsome : (m.find? (fun p => p.1 == k)).isSome = true := by
      rw [List.find?_isSome]
      exact List.any_eq_true.mp hany
    cases hf : m.find? (fun p => p.1 == k) with
    | none => rw [hf] at hsome; cases hsome
    | some p0 =>
      have hp0 : (p0.1 == k) = true := by simpa using List.find?_some hf
      simp only [hf, Option.map_some', Option.getD_some]
      rw [if_pos hp0]

/-- Pushing onto a `.rela` bucket leaves every other key's list unchanged. -/
theorem mapLookup_relaMapPush_ne (m : List (String × List Elf64Rela))
    (k k' : String) (e : Elf64Rela) (h : (k' == k) = false) :
    mapLookup (relaMapPush m k e) k' = mapLookup m k' := by
  unfold relaMapPush
  cases hany : m.any (fun p => p.1 == k) with
  | false =>
    rw [if_neg (by simp [hany])]
    unfold mapLookup
    rw [List.find?_append]
    have hne : List.find? (fun p => p.1 == k') [(k, [e])] = none := by
      simp only [List.find?_cons]
      cases hk : ((k, [e]).1 == k') with
      | false => rfl
      | true =>
        rw [show k' = k from (eq_of_beq hk).symm] at h
        simp at h
    rw [hne]
    simp
  | true =>
    rw [if_pos (by simp [hany])]
    unfold mapLookup
    rw [List.find?_map, relaMapPush_pred_comp k k' e]
    cases hf : m.find? (fun p => p.1 == k') with
    | none => simp
    | some p0 =>
      have hp0 : (p0.1 == k') = true := by simpa using List.find?_some hf
      have hp0k : (p0.1 == k) = false := by
        rw [eq_of_beq hp0]
        exact h
      simp only [hf, Option.map_some']
      rw [if_neg (by rw [hp0k]; exact Bool.false_ne_true)]

/-- Prepending the fixed `".rela"` prefix preserves and reflects name
equality. -/
theorem string_append_beq (p a b : String) : ((p ++ a) == (p ++ b)) = (a == b) := by
  by_cases hab : a = b
  · subst hab; simp
  · have hne : p ++ a ≠ p ++ b := by
      intro hc
      apply hab
      have hdata := congrArg String.data hc
      rw [String.data_append, String.data_append] at hdata
      exact String.ext (List.append_cancel_left hdata)
    rw [beq_eq_false_iff_ne.mpr hne, beq_eq_false_iff_ne.mpr hab]

/-- The `rela_text_users` loop, per key: the final bucket of `key` is the
initial bucket extended by one entry per unresolved relocation whose
`.rela<section>` name is `key`, in input order. -/
theorem relaTextUsers_lookup (symtabIndexes : List (String × Nat))
    (symbols : List (String × Instr)) :
    ∀ (relas : List Rela) (m : List (String × List Elf64Rela))
      (ns : List String) (key : String),
      mapLookup (relaTextUsers symtabIndexes symbols relas (m, ns)).1 key =
        (match mapLookup m key with
         | some l => some (l ++ (relas.filter (fun r => !r.isAlreadyResolved &&
              ((".rela" ++ r.instr.sectionName) == key))).map
                (mkRelaEntry symtabIndexes symbols))
         | none =>
           if (relas.filter (fun r => !r.isAlreadyResolved &&
                ((".rela" ++ r.instr.sectionName) == key))).map
                  (mkRelaEntry symtabIndexes symbols) = [] then none
           else some ((relas.filter (fun r => !r.isAlreadyResolved &&
                ((".rela" ++ r.instr.sectionName) == key))).map
                  (mkRelaEntry symtabIndexes symbols))) := by
  intro relas
  induction relas with
  | nil =>
    intro m ns key
    simp only [relaTextUsers, List.filter_nil, List.map_nil]
    cases mapLookup m key <;> simp
  | cons r rs ih =>
    intro m ns key
    unfold relaTextUsers
    cases hres : r.isAlreadyResolved with
    | true =>
      rw [if_pos rfl]
      rw [ih]
      simp [List.filter_cons, hres]
    | false =>
      rw [if_neg (by simp)]
      rw [ih]
      cases hkey : ((".rela" ++ r.instr.sectionName) == key) with
      | true =>
        have hkeq : (".rela" ++ r.instr.sectionName) = key := eq_of_beq hkey
        rw [hkeq, mapLookup_relaMapPush_self]
        simp only [List.filter_cons, hres, hkey, Bool.not_false, Bool.true_and,
          List.map_cons]
        cases hm : mapLookup m key with
        | some l => simp [List.append_assoc]
        | none => simp
      | false =>
        have hkne : (key == (".rela" ++ r.instr.sectionName)) = false := by
          rw [beq_eq_false_iff_ne]
          intro hc
          rw [← hc] at hkey
          simp at hkey
        rw [mapLookup_relaMapPush_ne _ _ _ _ hkne]
        simp only [List.filter_cons, hres, hkey, Bool.not_false, Bool.true_and,
          Bool.and_false, Bool.false_eq_true, if_false]

/-- Claim C2 (amended): starting from an empty `rela` map, every relocation
record with the resolved flag unset appears exactly once — in input order —
in the `.rela<section>` bucket of its referencing instruction's section
(`mkRelaEntry` gives its `r_offset`/`r_info`/`r_addend`); records whose
resolved flag is set produce no entry. For a *global-bound or undefined*
referenced symbol, `r_info`'s upper half is the symbol-table row of the
referenced name; for a defined non-global symbol it is the row of the
symbol's owning *section* (with the symbol's address folded into the
addend) — not, as the claim states, the row of the symbol's own name. -/
theorem c2_theorem (symtabIndexes : List (String × Nat))
    (symbols : List (String × Instr)) (relas : List Rela) (sect : String) :
    mapLookup (relaTextUsers symtabIndexes symbols relas ([], [])).1
        (".rela" ++ sect) =
      (if (relas.filter (fun r => !r.isAlreadyResolved &&
            (r.instr.sectionName == sect))).map
              (mkRelaEntry symtabIndexes symbols) = [] then none
       else some ((relas.filter (fun r => !r.isAlreadyResolved &&
            (r.instr.sectionName == sect))).map
              (mkRelaEntry symtabIndexes symbols))) := by
  rw [relaTextUsers_lookup symtabIndexes symbols relas [] [] (".rela" ++ sect)]
  have hfil : relas.filter (fun r => !r.isAlreadyResolved &&
        ((".rela" ++ r.instr.sectionName) == (".rela" ++ sect))) =
      relas.filter (fun r => !r.isAlreadyResolved && (r.instr.sectionName == sect)) :=
    List.filter_congr (fun r _ => by rw [string_append_beq])
  rw [hfil]
  rfl

/-- Claim C2 counterexample: a pending, unresolved absolute relocation
against the defined *local* symbol `foo` (section `.data`, row 3 for the
name, row 2 for the section) is emitted with
`r_info = (2 << 32) | 1` — the *section's* symbol-table row — while the
claim demands `(symbol_index << 32) | rtype = (3 << 32) | 1` with the row of
the referenced name; the symbol's address 16 is folded into the addend
instead. -/
theorem c2_counterexample :
    (relaTextUsers c2idx [("foo", c2sym)] [c2rela] ([], [])).1 =
      [(".rela.text", [{ rOffset := 2, rInfo := (2 <<< 32) + 1, rAddend := 16 }])] ∧
    specRInfo c2idx c2rela = (3 <<< 32) + 1 ∧
    ((2 : Nat) <<< 32) + 1 ≠ ((3 : Nat) <<< 32) + 1 :=
  ⟨rfl, rfl, by decide⟩

/-! ## Claim theorems: same-section relocation resolution (C1) -/

/-- The per-entry rewrite of `mapUpdate` keeps every key. -/
theorem mapUpdate_pred_comp {α : Type} (k k' : String) (f : α → α) :
    ((fun (p : String × α) => p.1 == k') ∘
        (fun p => if p.1 == k then (p.1, f p.2) else p)) =
      (fun p => p.1 == k') := by
  funext p
  by_cases hpk : (p.1 == k) = true <;> simp [Function.comp, hpk]

/-- Updating a key rewrites that key's value. -/
theorem mapLookup_mapUpdate_self {α : Type} (m : List (String × α)) (k : String)
    (f : α → α) :
    mapLookup (mapUpdate m k f) k = (mapLookup m k).map f := by
  unfold mapUpdate mapLookup
  rw [List.find?_map, mapUpdate_pred_comp]
  cases hf : m.find? (fun p => p.1 == k) with
  | none => simp
  | some p0 =>
    have hp0 : (p0.1 == k) = true := by simpa using List.find?_some hf
    simp only [hf, Option.map_some']
    rw [if_pos hp0]

/-- Updating a key leaves every other key's value unchanged. -/
theorem mapLookup_mapUpdate_ne {α : Type} (m : List (String × α)) (k k' : String)
    (f : α → α) (h : (k' == k) = false) :
    mapLookup (mapUpdate m k f) k' = mapLookup m k' := by
  unfold mapUpdate mapLookup
  rw [List.find?_map, mapUpdate_pred_comp]
  cases hf : m.find? (fun p => p.1 == k') with
  | none => simp
  | some p0 =>
    have hp0 : (p0.1 == k') = true := by simpa using List.find?_some hf
    have hp0k : (p0.1 == k) = false := by
      rw [eq_of_beq hp0]
      exact h
    simp only [hf, Option.map_some']
    rw [if_neg (by rw [hp0k]; exact Bool.false_ne_true)]

/-- The four-byte patch does not change the buffer's length. -/
theorem patch4_length (code : List Nat) (pos : Nat) (hex : List Nat) :
    (patch4 code pos hex).length = code.length := by
  simp [patch4]

/-- The four-byte patch leaves bytes outside `[pos, pos + 3]` unchanged. -/
theorem patch4_getElem?_outside (code : List Nat) (pos : Nat) (hex : List Nat)
    (p : Nat) (h : p < pos ∨ pos + 3 < p) :
    (patch4 code pos hex)[p]? = code[p]? := by
  unfold patch4
  rw [List.getElem?_set_ne (by omega), List.getElem?_set_ne (by omega),
    List.getElem?_set_ne (by omega), List.getElem?_set_ne (by omega)]

/-- When the patch range is in bounds, the patched buffer holds the four
little-endian bytes at `pos + k`. -/
theorem patch4_getElem?_at (code : List Nat) (pos : Nat) (hex : List Nat)
    (hb : pos + 3 < code.length) :
    ∀ k, k < 4 → (patch4 code pos hex)[pos + k]? = some (hex.getD k 0) := by
  intro k hk
  unfold patch4
  interval_cases k
  · have h0 : pos + 0 = pos := by omega
    rw [h0, List.getElem?_set_ne (by omega), List.getElem?_set_ne (by omega),
      List.getElem?_set_ne (by omega), List.getElem?_set_self (by omega)]
  · rw [List.getElem?_set_ne (by omega), List.getElem?_set_ne (by omega),
      List.getElem?_set_self (by simp only [List.length_set]; omega)]
  · rw [List.getElem?_set_ne (by omega),
      List.getElem?_set_self (by simp only [List.length_set]; omega)]
  · rw [List.getElem?_set_self (by simp only [List.length_set]; omega)]

/-- The relocation component of one loop iteration: resolved exactly under
the guard, untouched otherwise; it does not depend on the section map. -/
theorem fixOne_snd (symbols : List (String × Instr))
    (sections : List (String × UserDefinedSection)) (r : Rela) :
    (fixOne symbols sections r).2 =
      (if relaCond symbols r then { r with isAlreadyResolved := true } else r) := by
  unfold fixOne
  split <;> rfl

/-- The relocation list after the pass is the input list with exactly the
guard-satisfying records marked resolved. -/
theorem fixLoop_fst (symbols : List (String × Instr)) :
    ∀ (rs : List Rela) (sections : List (String × UserDefinedSection)),
      (fixLoop symbols rs sections).1 =
        rs.map (fun r =>
          if relaCond symbols r then { r with isAlreadyResolved := true } else r) := by
  intro rs
  induction rs with
  | nil => intro sections; rfl
  | cons r rs ih =>
    intro sections
    unfold fixLoop
    simp only [List.map_cons]
    rw [fixOne_snd, ih]

/-- When the guard holds and the write range is inside the section buffer,
one loop iteration plants the four little-endian bytes of the computed
displacement at `instr.addr + offset`. -/
theorem fixOne_write (symbols : List (String × Instr))
    (sections : List (String × UserDefinedSection)) (r : Rela)
    (hc : relaCond symbols r = true) (u : UserDefinedSection)
    (hu : mapLookup sections r.instr.sectionName = some u)
    (hb : writePos r + 3 < u.code.length) :
    ∀ k, k < 4 →
      byteAt (fixOne symbols sections r).1 r.instr.sectionName (writePos r + k) =
        some ((le32 (relaNum32 symbols r)).getD k 0) := by
  intro k hk
  unfold fixOne
  rw [if_pos hc]
  unfold byteAt
  rw [mapLookup_mapUpdate_self, hu]
  simp only [Option.map_some', Option.some_bind]
  exact patch4_getElem?_at u.code (writePos r) _ hb k hk

/-- One loop iteration does not change bytes outside the write range of its
own relocation (nor any byte of another section). -/
theorem fixOne_frame (symbols : List (String × Instr))
    (sections : List (String × UserDefinedSection)) (r : Rela) (name : String)
    (p : Nat)
    (h : relaCond symbols r = true → r.instr.sectionName = name →
      p < writePos r ∨ writePos r + 3 < p) :
    byteAt (fixOne symbols sections r).1 name p = byteAt sections name p := by
  unfold fixOne
  by_cases hc : relaCond symbols r
  · rw [if_pos hc]
    by_cases hn : (name == r.instr.sectionName) = true
    · have heq := eq_of_beq hn
      subst heq
      unfold byteAt
      rw [mapLookup_mapUpdate_self]
      cases hu : mapLookup sections r.instr.sectionName with
      | none => rfl
      | some u =>
        simp only [Option.map_some', Option.some_bind]
        exact patch4_getElem?_outside u.code (writePos r) _ p (h hc rfl)
    · have hfalse : (name == r.instr.sectionName) = false := by
        cases h2 : (name == r.instr.sectionName) with
        | false => rfl
        | true => exact absurd h2 hn
      unfold byteAt
      rw [mapLookup_mapUpdate_ne _ _ _ _ hfalse]
  · rw [if_neg hc]

/-- One loop iteration preserves each section's presence and buffer length. -/
theorem fixOne_lookup_len (symbols : List (String × Instr))
    (sections : List (String × UserDefinedSection)) (r : Rela) (name : String) :
    (mapLookup (fixOne symbols sections r).1 name).map (fun u => u.code.length) =
      (mapLookup sections name).map (fun u => u.code.length) := by
  unfold fixOne
  by_cases hc : relaCond symbols r
  · rw [if_pos hc]
    by_cases hn : (name == r.instr.sectionName) = true
    · have heq := eq_of_beq hn
      subst heq
      rw [mapLookup_mapUpdate_self]
      cases mapLookup sections r.instr.sectionName <;> simp [patch4_length]
    · have hfalse : (name == r.instr.sectionName) = false := by
        cases h2 : (name == r.instr.sectionName) with
        | false => rfl
        | true => exact absurd h2 hn
      rw [mapLookup_mapUpdate_ne _ _ _ _ hfalse]
  · rw [if_neg hc]

/-- The whole pass does not change bytes outside the write ranges of the
guard-satisfying relocations it processes. -/
theorem fixLoop_frame (symbols : List (String × Instr)) :
    ∀ (rs : List Rela) (sections : List (String × UserDefinedSection))
      (name : String) (p : Nat),
      (∀ r ∈ rs, relaCond symbols r = true → r.instr.sectionName = name →
        p < writePos r ∨ writePos r + 3 < p) →
      byteAt (fixLoop symbols rs sections).2 name p = byteAt sections name p := by
  intro rs
  induction rs with
  | nil => intro sections name p _; rfl
  | cons r rs ih =>
    intro sections name p h
    unfold fixLoop
    dsimp only
    rw [ih _ name p (fun r' hr' => h r' (List.mem_cons_of_mem r hr'))]
    exact fixOne_frame symbols sections r name p (h r (List.mem_cons_self r rs))

/-- The whole pass preserves each section's presence and buffer length. -/
theorem fixLoop_lookup_len (symbols : List (String × Instr)) :
    ∀ (rs : List Rela) (sections : List (String × UserDefinedSection))
      (name : String),
      (mapLookup (fixLoop symbols rs sections).2 name).map (fun u => u.code.length) =
        (mapLookup sections name).map (fun u => u.code.length) := by
  intro rs
  induction rs with
  | nil => intro sections name; rfl
  | cons r rs ih =>
    intro sections name
    unfold fixLoop
    dsimp only
    rw [ih _ name]
    exact fixOne_lookup_len symbols sections r name

/-- The pass processes an appended list by processing the first part, then
the second on the resulting section map. -/
theorem fixLoop_append (symbols : List (String × Instr)) :
    ∀ (as bs : List Rela) (sections : List (String × UserDefinedSection)),
      fixLoop symbols (as ++ bs) sections =
        ((fixLoop symbols as sections).1 ++
            (fixLoop symbols bs (fixLoop symbols as sections).2).1,
          (fixLoop symbols bs (fixLoop symbols as sections).2).2) := by
  intro as
  induction as with
  | nil => intro bs sections; simp [fixLoop]
  | cons a as ih =>
    intro bs sections
    show ((fixOne symbols sections a).2 ::
            (fixLoop symbols (as ++ bs) (fixOne symbols sections a).1).1,
          (fixLoop symbols (as ++ bs) (fixOne symbols sections a).1).2) = _
    rw [ih]
    rfl

/-- Claim C1: after `fix_same_section_relocations`, (a) the i-th relocation
is marked resolved exactly when its referenced symbol is defined in the same
section as its instruction, is not global-bound, and the instruction is a
direct jump/call or the type is PC32 — and is returned untouched otherwise;
(b) when the guard holds, the section into whose buffer it writes is
present, the 4-byte range is in bounds, and no later guard-satisfying
relocation of the same section overlaps the range, then the final buffer
holds the 32-bit little-endian value
`(symbol.addr - instr.addr - instr.code.len()) + adjust` (reduced mod 2^32)
at `instr.addr + offset`. -/
theorem c1_theorem (symbols : List (String × Instr)) (relas : List Rela)
    (sections : List (String × UserDefinedSection)) (i : Nat)
    (hi : i < relas.length) :
    ((fixSameSectionRelocations symbols relas sections).1[i]? =
      some (if relaCond symbols relas[i] then
              { relas[i] with isAlreadyResolved := true }
            else relas[i])) ∧
    (relaCond symbols relas[i] = true →
      ∀ u, mapLookup sections (relas[i]).instr.sectionName = some u →
        writePos relas[i] + 3 < u.code.length →
        (∀ j, ∀ hj : j < relas.length, i < j →
          relaCond symbols relas[j] = true →
          (relas[j]).instr.sectionName = (relas[i]).instr.sectionName →
          ∀ k, k < 4 → writePos relas[i] + k < writePos relas[j] ∨
            writePos relas[j] + 3 < writePos relas[i] + k) →
        ∀ k, k < 4 →
          byteAt (fixSameSectionRelocations symbols relas sections).2
              (relas[i]).instr.sectionName (writePos relas[i] + k) =
            some ((le32 (relaNum32 symbols relas[i])).getD k 0)) := by
  constructor
  · unfold fixSameSectionRelocations
    rw [fixLoop_fst, List.getElem?_map, List.getElem?_eq_getElem hi]
    rfl
  · intro hc u hu hb hno k hk
    have hdecomp : relas = relas.take i ++ relas[i] :: relas.drop (i + 1) := by
      conv_lhs => rw [← List.take_append_drop i relas]
      rw [List.drop_eq_getElem_cons hi]
    have h2 : (fixLoop symbols relas sections).2 =
        (fixLoop symbols (relas.drop (i + 1))
          (fixOne symbols (fixLoop symbols (relas.take i) sections).2 relas[i]).1).2 := by
      conv_lhs => rw [hdecomp]
      rw [fixLoop_append]
      rfl
    have hframe : ∀ r' ∈ relas.drop (i + 1), relaCond symbols r' = true →
        r'.instr.sectionName = (relas[i]).instr.sectionName →
        writePos relas[i] + k < writePos r' ∨
          writePos r' + 3 < writePos relas[i] + k := by
      intro r' hr' hc' hs'
      obtain ⟨m, hm, heq⟩ := List.mem_iff_getElem.mp hr'
      have hmlen : i + 1 + m < relas.length := by
        rw [List.length_drop] at hm
        omega
      rw [List.getElem_drop] at heq
      rw [← heq] at hc' hs'
      have := hno (i + 1 + m) hmlen (by omega) hc' hs' k hk
      rw [heq] at this
      exact this
    show byteAt (fixLoop symbols relas sections).2 _ _ = _
    rw [h2]
    rw [fixLoop_frame symbols (relas.drop (i + 1)) _ _ _
      (fun r' hr' hc' hs' => hframe r' hr' hc' hs')]
    have hlen := fixLoop_lookup_len symbols (relas.take i) sections
      (relas[i]).instr.sectionName
    rw [hu] at hlen
    cases hu1 : mapLookup (fixLoop symbols (relas.take i) sections).2
        (relas[i]).instr.sectionName with
    | none => rw [hu1] at hlen; cases hlen
    | some u1 =>
      rw [hu1] at hlen
      simp only [Option.map_some', Option.some.injEq] at hlen
      exact fixOne_write symbols _ relas[i] hc u1 hu1 (by omega) k hk

/-- Witness for C1: one same-section `call` relocation against a local
symbol; the pass marks it resolved and plants `0xFFFFFFF6` (= −10, i.e.
`0 − 5 − 5`) little-endian at offset 6 of `.text`. -/
theorem c1_witness :
    (fixSameSectionRelocations c1syms [c1rela] c1secs).1[0]? =
      some { c1rela with isAlreadyResolved := true } ∧
    byteAt (fixSameSectionRelocations c1syms [c1rela] c1secs).2 ".text" 6 =
      some 246 := by
  have h := c1_theorem c1syms [c1rela] c1secs 0 (by decide)
  simp only [List.getElem_cons_zero] at h
  refine ⟨?_, ?_⟩
  · have h1 := h.1
    rw [if_pos (show relaCond c1syms c1rela = true from by decide)] at h1
    exact h1
  · have h2 := h.2 (by decide)
      { code := List.replicate 10 0, addr := 10, flags := 6 } (by decide)
      (by decide)
      (fun j hj hij =>
        absurd hj (by simp only [List.length_singleton]; omega)) 0 (by decide)
    exact h2
